import Mathlib

/-!
Verification of the conversation/transaction state machine of the chatbot
repository, embedded shallowly from `chatbot/conversation.py` (the module the
verified claims cite; `chatbot/core.py` is a later-generation refactor that
does not contain the turn algorithm).

Embedding conventions:
- Python (ordered) dicts become association lists `List (String × _)` with
  in-place update semantics (`odSet`) and `OrderedDictPlus.prepend`
  (`odPrepend`).
- NLU confidence scores (floats in `[0, 1]`) become rationals.
- Exceptions become an explicit `PyErr` value through the `Except` monad; an
  uncaught exception aborts the turn, so state mutated before a raise is
  discarded by the embedding (it is unobservable to the turn's caller).
- Methods mutating `self` become functions from state to state.
- `random.choice xs` becomes the head of `xs` (still erroring on empty
  lists); no verified property depends on which prompt text is chosen.
- Python object identity comparisons between Intent objects are modeled by
  name equality: intents are keyed by their unique names in the conversation
  registries, and the slot values shared between the registry and the other
  references to the same object are read authoritatively from the
  `Conversation.intents` registry.
- The mutually recursive action-dispatch cycle
  (`do_action` / `add_common_response_message` / `abort_intent` / ...) can
  loop forever in Python for pathological bot metadata, so those functions
  take a fuel argument and report `PyErr.nonTermination` when it runs out.
-/

namespace Chatbot

/-- Python exception outcomes arising in the embedded code. -/
inductive PyErr where
  | assertionError (msg : String)
  | attributeError (msg : String)
  | typeError (msg : String)
  | keyError (key : String)
  | indexError (msg : String)
  | requestError (msg : String)
  | nonTermination
  deriving Repr, DecidableEq

/-- Result of running embedded Python code: a value or an uncaught exception. -/
abbrev PyResult (α : Type) := Except PyErr α

/-- Whitespace characters stripped by Python str.strip(). -/
def isPySpace (c : Char) : Bool :=
  c = ' ' || c = '\t' || c = '\n' || c = '\r' || c = Char.ofNat 11 || c = Char.ofNat 12

/-- Embedding of Python str.strip(): drop leading and trailing whitespace. -/
def pyStrip (s : String) : String :=
  String.mk (((s.toList.dropWhile isPySpace).reverse.dropWhile isPySpace).reverse)

/-- Embedding of Python str.endswith for a one-character suffix. -/
def pyEndsWith (s : String) (c : Char) : Bool :=
  s.toList.getLast? = some c

/-- Embedding of Python str.startswith. -/
def pyStartsWith (s pre : String) : Bool :=
  pre.toList.isPrefixOf s.toList

/-- Embedding of Python str.lower restricted to ASCII (sufficient for the
status strings compared by the source). -/
def pyLower (s : String) : String :=
  String.mk (s.toList.map Char.toLower)

/-- Suffix of `s` after the leading occurrence of `pre`; embedding of the
idiom `(join (s.split pre))[1:]` used by `do_action` on variable actions,
for the reachable case where the prefix occurs once, at the front. -/
def pyAfter (s pre : String) : String :=
  String.mk (s.toList.drop pre.toList.length)

/-- Opening brace character (written out to keep braces out of literals). -/
def lbrace : Char := Char.ofNat 123

/-- Closing brace character. -/
def rbrace : Char := Char.ofNat 125

/-- Field name of one replacement field: the text before a format spec or
conversion marker, as string.Formatter().parse produces. -/
def formatFieldName (cs : List Char) : String :=
  String.mk (cs.takeWhile (fun c => !(c = ':' || c = '!')))

/-- Scanner behind the embedding of utils.get_string_format_args: collects
the field names of the replacement fields of a format string.  Malformed
templates (stray single braces) end the scan; no verified property uses
them. -/
def formatArgsScan : Nat → List Char → List String
  | 0, _ => []
  | _, [] => []
  | fuel + 1, c :: rest =>
    if c = lbrace then
      match rest with
      | [] => []
      | c2 :: rest2 =>
        if c2 = lbrace then formatArgsScan fuel rest2
        else
          let field := rest.takeWhile (fun d => !(d = rbrace))
          let after := (rest.dropWhile (fun d => !(d = rbrace))).drop 1
          formatFieldName field :: formatArgsScan fuel after
    else if c = rbrace then
      match rest with
      | [] => []
      | _ :: rest2 => formatArgsScan fuel rest2
    else formatArgsScan fuel rest

/-- Embedding of utils.get_string_format_args. -/
def getStringFormatArgs (s : String) : List String :=
  formatArgsScan (s.toList.length + 1) s.toList

/-- Lookup in an association list; embedding of dict indexing and dict.get. -/
def alistGet? {α : Type} : List (String × α) → String → Option α
  | [], _ => none
  | p :: t, k => if p.1 = k then some p.2 else alistGet? t k

/-- Embedding of the Python `in` test on a dict. -/
def alistContains {α : Type} (l : List (String × α)) (k : String) : Bool :=
  (alistGet? l k).isSome

/-- Embedding of ordered-dict assignment d[k] = v: the value is updated in
place when the key exists, otherwise the pair is appended. -/
def odSet {α : Type} : List (String × α) → String → α → List (String × α)
  | [], k, v => [(k, v)]
  | p :: t, k, v => if p.1 = k then (k, v) :: t else p :: odSet t k v

/-- Embedding of `del d[k]` (and of filtering a key out). -/
def alistErase {α : Type} (l : List (String × α)) (k : String) : List (String × α) :=
  l.filter (fun p => !(p.1 = k))

/-- Embedding of OrderedDictPlus.prepend: update the value, then move the
key to the front. -/
def odPrepend {α : Type} (l : List (String × α)) (k : String) (v : α) : List (String × α) :=
  (k, v) :: alistErase l k

/-- Python truthiness of an optional dict-valued field (None and the empty
dict are falsy). -/
def optDictTruthy {α : Type} : Option (List α) → Bool
  | none => false
  | some l => !l.isEmpty

/-- Embedding of random.choice: an arbitrary-but-fixed element of the list
(the first); raises IndexError on an empty list exactly as Python does. -/
def randomChoice {α : Type} : List α → PyResult α
  | [] => .error (.indexError "random.choice on empty sequence")
  | x :: _ => .ok x

/- Action name constants from the Actions class. -/
namespace Actions

def NoAction : String := "NoAction"

def CancelIntent : String := "CancelIntent"

def EndConversation : String := "EndConversation"

def ReplaceSlot : String := "ReplaceSlot"

def RepeatSlot : String := "RepeatSlot"

end Actions

/- Modelled from the spec: the VariableActions constants (name-prefix
parameterized actions) come from a core module that is not in the source
tree; conversation.py receives them via star imports.  The spec describes
them as actions resolved through a name-to-handler dispatch with a
parameter appended to the name, so each is modeled as its action name used
as a string prefix. -/
namespace VariableActions

def ConfirmSwitchIntent : String := "ConfirmSwitchIntent"

def RemoveIntent : String := "RemoveIntent"

def RepeatSlotAndRemoveIntent : String := "RepeatSlotAndRemoveIntent"

def Trigger : String := "Trigger"

end VariableActions

/- Intent name constants from the CommonIntents class used by
conversation.py and metadata.py. -/
namespace CommonIntents

def Cancel : String := "Cancel"

def ConfirmYes : String := "ConfirmYes"

def ConfirmNo : String := "ConfirmNo"

def Help : String := "Help"

def Repeat : String := "Repeat"

def Greeting : String := "Greeting"

def Why : String := "Why"

end CommonIntents

/-- Modelled from the spec: attribute names of the CommonIntents class the
old-generation core module (absent from the source tree) defines; the list
is reconstructed from every member conversation.py and metadata.py
reference.  is_common_intent tests membership of an intent name in this
list. -/
def commonIntentNames : List String :=
  ["Cancel", "ConfirmNo", "ConfirmYes", "Greeting", "Help", "NoIntent", "Repeat", "Why"]

/-- Embedding of is_common_intent. -/
def isCommonIntent (name : String) : Bool :=
  commonIntentNames.contains name

/-- Embedding of the Entity NLU result class: name, type (doubling as the
slot-name alias), confidence score, extracted value and the provenance flag
for context-injected entities. -/
structure Entity where
  name : String
  type : String
  score : Option ℚ := none
  value : Option String := none
  from_context : Bool := false
  deriving Repr, DecidableEq

/-- The slot-name alias of an entity; __init__ sets slot_name to type. -/
def Entity.slot_name (e : Entity) : String := e.type

/-- Embedding of the Question message class (also the FollowUp subclass,
which adds no fields): prompts plus the intent/entity answer contracts. -/
structure Question where
  name : String
  prompts : List String := []
  intent_actions : Option (List (String × String)) := none
  entity_actions : Option (List (String × String)) := none
  help : Option (List String) := none
  why : Option (List String) := none
  deriving Repr, DecidableEq

/-- Embedding of the Slot message class.  Slot.__init__ fixes the entity
actions to accept the slot's own entity with NoAction, so they are derived
(`Slot.entity_actions`) rather than stored.  `value` is the runtime slot
value living in the conversation's intent registry. -/
structure Slot where
  name : String
  prompts : List String := []
  entity_handler_name : Option String := none
  follow_up : Option Question := none
  autofill : Bool := false
  help : Option (List String) := none
  why : Option (List String) := none
  value : Option Entity := none
  deriving Repr, DecidableEq

/-- Entity actions a Slot is constructed with: its own entity, NoAction. -/
def Slot.entity_actions (s : Slot) : Option (List (String × String)) :=
  some [(s.name, Actions.NoAction)]

/-- A message a transaction can hold as its pending question: a Slot or a
FollowUp (the isinstance checks of the source distinguish the two). -/
inductive QMessage where
  | slot (s : Slot)
  | fUp (q : Question)
  deriving Repr, DecidableEq

/-- Name of a pending question message. -/
def QMessage.name : QMessage → String
  | .slot s => s.name
  | .fUp q => q.name

/-- Prompt texts of a pending question message. -/
def QMessage.prompts : QMessage → List String
  | .slot s => s.prompts
  | .fUp q => q.prompts

/-- Entity answer contract of a pending question message. -/
def QMessage.entity_actions : QMessage → Option (List (String × String))
  | .slot s => s.entity_actions
  | .fUp q => q.entity_actions

/-- Intent answer contract of a pending question message. -/
def QMessage.intent_actions : QMessage → Option (List (String × String))
  | .slot _ => none
  | .fUp q => q.intent_actions

/-- Help texts of a pending question message. -/
def QMessage.help : QMessage → Option (List String)
  | .slot s => s.help
  | .fUp q => q.help

/-- Why texts of a pending question message. -/
def QMessage.why : QMessage → Option (List String)
  | .slot s => s.why
  | .fUp q => q.why

/-- Embedding of the Intent class of conversation.py: catalog data (slots,
responses, flags, fulfillment webhook url) plus the per-conversation
runtime slot values (inside `slots`) and the fulfillment data recorded by
`fulfill`. -/
structure Intent where
  name : String
  score : Option ℚ := none
  repeatable : Bool := false
  preemptive : Bool := false
  fulfillment : Option String := none
  is_answer : Bool := false
  is_greeting : Bool := false
  help : Option (List String) := none
  why : Option (List String) := none
  responses : List (String × List String) := []
  slots : List (String × Slot) := []
  fulfillment_data : Option (List (String × Option String)) := none
  deriving Repr, DecidableEq

/-- Computed is_common_intent attribute of an Intent. -/
def Intent.is_common_intent (i : Intent) : Bool :=
  isCommonIntent i.name

/-- Embedding of Intent.get_remaining_intent_slots: the slots whose value is
absent, order preserved, as pending question messages. -/
def Intent.getRemainingIntentSlots (i : Intent) : List (String × QMessage) :=
  (i.slots.filter (fun p => p.2.value.isNone)).map (fun p => (p.1, QMessage.slot p.2))

/-- Embedding of the Transaction class: the single-turn ledger.  The id
fields identify the turn; the input and raw NLU response are threaded as
function arguments rather than stored. -/
structure Transaction where
  id : String := "tx"
  conversation_id : String := "convo"
  response_messages : List (String × Option String) := []
  response_message_text : Option String := none
  slots_filled : List (String × Entity) := []
  question : Option QMessage := none
  active_intent : Option Intent := none
  new_intents : List Intent := []
  aborted_intents : List Intent := []
  canceled_intents : List Intent := []
  completed_intent : Option Intent := none
  expected_entities : Option (List (String × String)) := none
  expected_intents : Option (List (String × String)) := none
  expected_text : Option (List (String × String)) := none
  repeat_id : Option String := none
  repeat_reason : Option String := none
  deriving Repr, DecidableEq

/-- Embedding of Transaction.requires_answer. -/
def Transaction.requiresAnswer (tx : Transaction) : Bool :=
  optDictTruthy tx.expected_entities || optDictTruthy tx.expected_intents ||
    optDictTruthy tx.expected_text

/-- Sentence termination add_response_message applies: append a period
unless the stripped message already ends in a period or question mark. -/
def terminateSentence (s : String) : String :=
  if pyEndsWith s '.' || pyEndsWith s '?' then s else s ++ "."

/-- Message-munging half of Transaction.add_response_message (lines 598 to
607): strip the message, terminate it with a period unless it already ends
in a period or question mark, and assert that any format args are
satisfiable by the context. -/
def processResponseMessage (message : Option String) (context : List (String × Option String)) :
    PyResult (Option String) :=
  match message with
  | none => .ok none
  | some m =>
    if m = "" then .ok (some m)
    else
      let m := terminateSentence (pyStrip m)
      let fargs := getStringFormatArgs m
      if fargs.isEmpty then .ok (some m)
      else if context.isEmpty then
        .error (.assertionError "Message has format args but no context")
      else if fargs.all (fun a => alistContains context a) then .ok (some m)
      else .error (.assertionError "Message arg can not be satisifed by context")

/-- Contract-recording half of Transaction.add_response_message (lines 616
to 627): setting any expected-answer field asserts that the transaction
does not already require an answer, then records each non-empty field. -/
def Transaction.setExpectedAnswers (tx : Transaction)
    (expected_entities expected_intents expected_text : Option (List (String × String))) :
    PyResult Transaction :=
  if optDictTruthy expected_entities || optDictTruthy expected_intents ||
      optDictTruthy expected_text then
    if tx.requiresAnswer then
      .error (.assertionError "A transaction can only require a single answer")
    else
      let tx := if optDictTruthy expected_entities then
        { tx with expected_entities := expected_entities } else tx
      let tx := if optDictTruthy expected_intents then
        { tx with expected_intents := expected_intents } else tx
      let tx := if optDictTruthy expected_text then
        { tx with expected_text := expected_text } else tx
      .ok tx
  else .ok tx

/-- Embedding of Transaction.add_response_message: process and store the
message under its key (prepending on request), then record the
expected-answer contract, asserting that the transaction does not already
require an answer. -/
def Transaction.addResponseMessage (tx : Transaction) (message_name : String)
    (message : Option String) (context : List (String × Option String) := [])
    (expected_entities : Option (List (String × String)) := none)
    (expected_intents : Option (List (String × String)) := none)
    (expected_text : Option (List (String × String)) := none)
    (prependFlag : Bool := false) : PyResult Transaction :=
  match processResponseMessage message context with
  | .error e => .error e
  | .ok message =>
    let rm :=
      if prependFlag then odPrepend tx.response_messages message_name message
      else odSet tx.response_messages message_name message
    Transaction.setExpectedAnswers { tx with response_messages := rm }
      expected_entities expected_intents expected_text

/-- Embedding of Transaction.clear_response_messages. -/
def Transaction.clearResponseMessages (tx : Transaction) : Transaction :=
  { tx with response_messages := [], expected_entities := none, expected_intents := none,
            expected_text := none }

/-- Embedding of Transaction.copy_data_from_transaction: copy every field of
the other transaction except identity fields (id, conversation id, input,
raw NLU response) and the new-intent list. -/
def Transaction.copyDataFromTransaction (tx other : Transaction) : Transaction :=
  { tx with
    response_messages := other.response_messages
    response_message_text := other.response_message_text
    slots_filled := other.slots_filled
    question := other.question
    active_intent := other.active_intent
    aborted_intents := other.aborted_intents
    canceled_intents := other.canceled_intents
    completed_intent := other.completed_intent
    expected_entities := other.expected_entities
    expected_intents := other.expected_intents
    expected_text := other.expected_text
    repeat_id := other.repeat_id
    repeat_reason := other.repeat_reason }

/-- Entry of the question_attempts bookkeeping: normally a dict of
per-question counters, but clear_question_attempts assigns the integer 0,
so the value domain is the sum of both shapes. -/
inductive QAEntry where
  | int (n : Nat)
  | dict (d : List (String × Nat))
  deriving Repr, DecidableEq

/-- Row of the persisted Fulfillments table: one record per webhook call
(data holds the slot portion of the request payload). -/
structure FulfillmentRecord where
  conversation_id : String
  url : String
  status_code : Option Nat := none
  response : String := ""
  data : List (String × Option String) := []
  deriving Repr, DecidableEq

/-- Message object carried by a fulfillment response: either a plain
message or a question built by message_from_dict. -/
inductive FMessage where
  | plain (name : String) (prompts : List String)
  | question (q : Question)
  deriving Repr, DecidableEq

/-- Name of a fulfillment response message. -/
def FMessage.name : FMessage → String
  | .plain n _ => n
  | .question q => q.name

/-- Prompts of a fulfillment response message. -/
def FMessage.prompts : FMessage → List String
  | .plain _ ps => ps
  | .question q => q.prompts

/-- Entity actions of a fulfillment response message (getattr with a None
default: plain messages have none). -/
def FMessage.entity_actions : FMessage → Option (List (String × String))
  | .plain _ _ => none
  | .question q => q.entity_actions

/-- Intent actions of a fulfillment response message. -/
def FMessage.intent_actions : FMessage → Option (List (String × String))
  | .plain _ _ => none
  | .question q => q.intent_actions

/-- Embedding of the FulfillmentResponse class. -/
structure FulfillmentResponse where
  name : String
  status : String
  status_reason : Option String := none
  action : Option String := none
  message : Option FMessage := none
  deriving Repr, DecidableEq

/-- Embedding of FulfillmentResponse.success. -/
def FulfillmentResponse.success (r : FulfillmentResponse) : Bool :=
  pyLower r.status = "success"

/-- Outcome of the one blocking webhook POST a fulfillment performs,
supplied as an argument wherever the source calls requests.post. -/
inductive WebhookOutcome where
  | ok (status_code : Nat) (content : String) (status : String)
      (status_reason : Option String) (action : Option String) (message : Option FMessage)
  | httpError (status_code : Nat) (content : String)
  | transportError (msg : String)
  deriving Repr, DecidableEq

/-- Form a common message takes in bot metadata COMMON_MESSAGES: absent or
falsy, a bare string, a list of prompts, or a dict with prompts, answer
contracts and an action. -/
inductive CommonMessageInfo where
  | empty
  | text (s : String)
  | texts (ss : List String)
  | info (prompts : Option (List String)) (entity_actions : Option (List (String × String)))
      (intent_actions : Option (List (String × String))) (action : Option String)
  deriving Repr, DecidableEq

/-- Bot metadata consumed by the turn algorithm: retry caps, confidence
thresholds, the common-message catalog and the intent catalog (used by
triggered intents). -/
structure Metadata where
  MAX_QUESTION_ATTEMPTS : Nat := 2
  MAX_CONSECUTIVE_MESSAGE_ATTEMPTS : Nat := 2
  MAX_CONSECUTIVE_REPEAT_ATTEMPTS : Nat := 2
  INTENT_FILTER_THRESHOLD : ℚ := 1 / 2
  ENTITY_FILTER_THRESHOLD : ℚ := 1 / 2
  COMMON_MESSAGES : List (String × CommonMessageInfo) := []
  INTENT_METADATA : List (String × Intent) := []
  deriving Repr, DecidableEq

/-- Embedding of the Conversation class state.  transactions holds the
previous turns of the conversation (the current turn is threaded separately
next to it, see ConvoTx); fulfillments collects the rows the source writes
to the Fulfillments table. -/
structure Conversation where
  id : String := "convo"
  metadata : Metadata := {}
  transactions : List (String × Transaction) := []
  intents : List (String × Intent) := []
  active_intents : List (String × Intent) := []
  completed_intents : List (String × Intent) := []
  active_intent : Option Intent := none
  question_attempts : List (String × QAEntry) := []
  completed : Bool := false
  consecutive_message_count : List (String × Nat) := []
  consecutive_repeat_count : Nat := 0
  fulfillments : List FulfillmentRecord := []
  deriving Repr, DecidableEq

/-- State a turn mutates: the conversation and the current transaction. -/
structure ConvoTx where
  convo : Conversation
  tx : Transaction
  deriving Repr, DecidableEq

/-- Embedding of Conversation.get_last_transaction: the turn before the
current one (the current transaction is not part of the stored list in this
embedding, so that is the last stored turn). -/
def getLastTransaction (ct : ConvoTx) : Option Transaction :=
  (ct.convo.transactions.map Prod.snd).getLast?

/-- Embedding of Conversation.get_question_attempts; the intent argument is
optional because the source dereferences intent.name on a possibly absent
active intent.  Reading an entry clear_question_attempts set to the integer
0 fails like the Python attribute lookup int.get does. -/
def Conversation.getQuestionAttempts (convo : Conversation) (intent : Option Intent)
    (question : QMessage) : PyResult Nat :=
  match intent with
  | none => .error (.attributeError "NoneType has no attribute name")
  | some intent =>
    match alistGet? convo.question_attempts intent.name with
    | none => .ok 0
    | some (.dict d) => .ok ((alistGet? d question.name).getD 0)
    | some (.int _) => .error (.attributeError "int object has no attribute get")

/-- Embedding of Conversation.add_question_attempt: initialize missing
counters, then refuse to push a counter past MAX_QUESTION_ATTEMPTS (the
initialization writes persist even on refusal, exactly as in the source). -/
def Conversation.addQuestionAttempt (convo : Conversation) (intent : Option Intent)
    (question : QMessage) : PyResult (Bool × Conversation) :=
  match intent with
  | none => .error (.attributeError "NoneType has no attribute name")
  | some intent =>
    let qa := convo.question_attempts
    let qa := if alistContains qa intent.name then qa else odSet qa intent.name (.dict [])
    match alistGet? qa intent.name with
    | none => .error (.keyError intent.name)
    | some (.int _) => .error (.typeError "argument of type int is not iterable")
    | some (.dict d) =>
      let d := if alistContains d question.name then d else odSet d question.name 0
      let attempts := (alistGet? d question.name).getD 0 + 1
      if attempts > convo.metadata.MAX_QUESTION_ATTEMPTS then
        .ok (false, { convo with question_attempts := odSet qa intent.name (.dict d) })
      else
        let qa2 := odSet qa intent.name (.dict (odSet d question.name attempts))
        .ok (true, { convo with question_attempts := qa2 })

/-- Embedding of Conversation.clear_question_attempts, exactly as written in
the source: the per-intent entry is assigned the integer 0. -/
def Conversation.clearQuestionAttempts (convo : Conversation) (intent : Intent) : Conversation :=
  { convo with question_attempts := odSet convo.question_attempts intent.name (.int 0) }

/-- Embedding of Conversation.remove_active_intent. -/
def Conversation.removeActiveIntent (convo : Conversation) (intent : Intent) : Conversation :=
  let ai := alistErase convo.active_intents intent.name
  let act := match convo.active_intent with
    | some a => if a.name = intent.name then none else some a
    | none => none
  { convo with active_intents := ai, active_intent := act }

/-- Embedding of Conversation.remove_active_intent_by_name (the registry
lookup raises KeyError on an unknown name). -/
def Conversation.removeActiveIntentByName (convo : Conversation) (intent_name : String) :
    PyResult Conversation :=
  match alistGet? convo.intents intent_name with
  | none => .error (.keyError intent_name)
  | some intent => .ok (convo.removeActiveIntent intent)

/-- Embedding of Conversation.add_active_intent. -/
def Conversation.addActiveIntent (convo : Conversation) (intent : Intent) :
    PyResult Conversation :=
  if !intent.repeatable && alistContains convo.intents intent.name then
    .error (.assertionError "Intent is not repeatable")
  else
    .ok { convo with intents := odSet convo.intents intent.name intent,
                     active_intents := odSet convo.active_intents intent.name intent }

/-- Embedding of Conversation.prepend_active_intent. -/
def Conversation.prependActiveIntent (convo : Conversation) (intent : Intent) :
    PyResult Conversation :=
  if !intent.repeatable && alistContains convo.intents intent.name then
    .error (.assertionError "Intent is not repeatable")
  else
    .ok { convo with intents := odSet convo.intents intent.name intent,
                     active_intents := odPrepend convo.active_intents intent.name intent }

/-- Embedding of get_triggered_intent: look the name up in the intent
catalog (asserting it is valid) and instantiate it with score 1. -/
def getTriggeredIntent (metadata : Metadata) (intent_name : String) : PyResult Intent :=
  match alistGet? metadata.INTENT_METADATA intent_name with
  | none => .error (.assertionError ("Invalid intent name: " ++ intent_name))
  | some meta => .ok { meta with name := intent_name, score := some 1 }

/-- Embedding of Conversation.get_intent_slots: registry lookup of the
runtime slots of an intent. -/
def Conversation.getIntentSlots (convo : Conversation) (intent : Intent) :
    PyResult (List (String × Slot)) :=
  match alistGet? convo.intents intent.name with
  | none => .error (.keyError intent.name)
  | some stored => .ok stored.slots

/-- Embedding of Conversation.get_filled_slots_by_intent: slot name to
entity value for the filled slots of an intent (slots read from the
authoritative registry entry, falling back to the passed object as the
source shares one object between the two). -/
def Conversation.getFilledSlotsByIntent (convo : Conversation) (intent : Intent) :
    List (String × Option String) :=
  let slots := match alistGet? convo.intents intent.name with
    | some stored => stored.slots
    | none => intent.slots
  (slots.filter (fun p => p.2.value.isSome)).map
    (fun p => (p.1, match p.2.value with | some e => e.value | none => none))

/-- Embedding of Conversation.get_message_context. -/
def Conversation.getMessageContext (convo : Conversation) : List (String × Option String) :=
  match convo.active_intent with
  | some intent => convo.getFilledSlotsByIntent intent
  | none => []

/-- Embedding of Conversation.add_response_message (the wrapper that fills
in the message context before delegating to the transaction). -/
def addResponseMessageCt (ct : ConvoTx) (message_name : String) (message : Option String)
    (expected_entities : Option (List (String × String)) := none)
    (expected_intents : Option (List (String × String)) := none)
    (prependFlag : Bool := false) : PyResult ConvoTx :=
  match ct.tx.addResponseMessage message_name message ct.convo.getMessageContext
      expected_entities expected_intents none prependFlag with
  | .error e => .error e
  | .ok tx => .ok { ct with tx := tx }

/-- Embedding of Conversation.fill_intent_slot: store the entity as the
value of the matching slot in the intent registry and record the filled
slot on the transaction (keyed by intent name, as the source does). -/
def fillIntentSlot (ct : ConvoTx) (intent : Intent) (entity : Entity) :
    PyResult (Slot × ConvoTx) :=
  match alistGet? ct.convo.intents intent.name with
  | none => .error (.keyError intent.name)
  | some stored =>
    match alistGet? stored.slots entity.slot_name with
    | none => .error (.keyError entity.slot_name)
    | some slot =>
      let slot := { slot with value := some entity }
      let stored := { stored with slots := odSet stored.slots entity.slot_name slot }
      .ok (slot,
        { convo := { ct.convo with intents := odSet ct.convo.intents intent.name stored },
          tx := { ct.tx with slots_filled := odSet ct.tx.slots_filled intent.name entity } })

/-- Embedding of Conversation.clear_filled_slot (the filled-slot argument is
an entity, as in the callers). -/
def Conversation.clearFilledSlot (convo : Conversation) (intent : Option Intent)
    (entity : Entity) : PyResult Conversation :=
  match intent with
  | none => .error (.attributeError "NoneType has no attribute name")
  | some intent =>
    match alistGet? convo.intents intent.name with
    | none => .error (.keyError intent.name)
    | some stored =>
      match alistGet? stored.slots entity.slot_name with
      | none => .error (.keyError entity.slot_name)
      | some slot =>
        if slot.value.isNone then
          .error (.assertionError "Slot is not filled")
        else
          let slot := { slot with value := none }
          let stored := { stored with slots := odSet stored.slots entity.slot_name slot }
          .ok { convo with intents := odSet convo.intents intent.name stored }

/-- Embedding of Conversation.get_last_transaction_with_slot: most recent
previous turn that filled a slot, optionally restricted to one intent. -/
def getLastTransactionWithSlot (ct : ConvoTx) (intent : Option Intent) : Option Transaction :=
  ((ct.convo.transactions.map Prod.snd).reverse).find? (fun tx =>
    (match intent with
     | some i => (match tx.active_intent with
        | none => false
        | some a => a.name = i.name)
     | none => true)
    && !tx.slots_filled.isEmpty)

/-- Embedding of Conversation.repeat_slot: clear every slot the last
slot-filling turn of the active intent filled. -/
def clearFilledSlots (convo : Conversation) (intent : Option Intent) :
    List (String × Entity) → PyResult Conversation
  | [] => .ok convo
  | p :: rest =>
    match convo.clearFilledSlot intent p.2 with
    | .error e => .error e
    | .ok convo => clearFilledSlots convo intent rest

/-- Embedding of Conversation.repeat_slot: clear every slot the last
slot-filling turn of the active intent filled. -/
def Conversation.repeatSlotFilled (ct : ConvoTx) : PyResult ConvoTx :=
  match getLastTransactionWithSlot ct ct.convo.active_intent with
  | none =>
    .error (.assertionError "Trying to repeat slot but there is no last transaction with a slot")
  | some last_tx =>
    if last_tx.slots_filled.isEmpty then
      .error (.assertionError "Trying to repeat slot but no slot filled on previous transaction")
    else
      match clearFilledSlots ct.convo ct.convo.active_intent last_tx.slots_filled with
      | .error e => .error e
      | .ok convo => .ok { ct with convo := convo }

/-- Embedding of Conversation.transaction_repeatable: a turn is repeatable
when it (or the turn it itself repeated) asked no question, or the question
has attempts left before MAX_QUESTION_ATTEMPTS. -/
def transactionRepeatable (ct : ConvoTx) (last_tx : Transaction) : PyResult Bool :=
  let repeat_tx : PyResult Transaction :=
    match last_tx.repeat_id with
    | none => .ok last_tx
    | some rid =>
      match alistGet? ct.convo.transactions rid with
      | none => .error (.keyError rid)
      | some t => .ok t
  match repeat_tx with
  | .error e => .error e
  | .ok repeat_tx =>
    match repeat_tx.question with
    | none => .ok true
    | some q =>
      match ct.convo.getQuestionAttempts ct.convo.active_intent q with
      | .error e => .error e
      | .ok attempts => .ok (decide (attempts < ct.convo.metadata.MAX_QUESTION_ATTEMPTS))

/-- Embedding of Conversation.repeat_transaction: count the question
attempt (asserting the question is not exhausted), copy the repeated turn
into the current transaction and link it; with question_only, replay just
the question prompt. -/
def repeatTransaction (ct : ConvoTx) (last_tx : Transaction) (reason : Option String)
    (question_only : Bool) : PyResult ConvoTx :=
  let repeat_txR : PyResult Transaction :=
    match last_tx.repeat_id with
    | none => .ok last_tx
    | some rid =>
      match alistGet? ct.convo.transactions rid with
      | none => .error (.keyError rid)
      | some t => .ok t
  match repeat_txR with
  | .error e => .error e
  | .ok repeat_tx =>
    let ctR : PyResult ConvoTx :=
      match repeat_tx.question with
      | none => .ok ct
      | some q =>
        match ct.convo.addQuestionAttempt ct.convo.active_intent q with
        | .error e => .error e
        | .ok (true, convo) => .ok { ct with convo := convo }
        | .ok (false, _) =>
          .error (.assertionError "Unable to repeat transaction. Question exhausted")
    match ctR with
    | .error e => .error e
    | .ok ct =>
      let tx := ct.tx.copyDataFromTransaction repeat_tx
      let tx := { tx with repeat_id := some repeat_tx.id, repeat_reason := reason }
      if question_only then
        match tx.question with
        | none => .error (.assertionError "Last TX does not have a question to repeat")
        | some question =>
          let tx := tx.clearResponseMessages
          match ct.convo.active_intent with
          | none => .error (.attributeError "NoneType has no attribute name")
          | some active =>
            match randomChoice question.prompts with
            | .error e => .error e
            | .ok prompt =>
              addResponseMessageCt { ct with tx := tx } (active.name ++ ":" ++ question.name)
                (some prompt) question.entity_actions question.intent_actions false
      else
        .ok { ct with tx := tx }

/-- First expected-entity entry whose key names the slot-name alias of one
of the entity results. -/
def Transaction.expectedEntityAnswer (tx : Transaction) (entities : List Entity) :
    Option String :=
  match tx.expected_entities with
  | none => none
  | some l => (l.find? (fun p => (entities.map Entity.slot_name).contains p.1)).map Prod.snd

/-- First expected-intent entry whose key names one of the intent results. -/
def Transaction.expectedIntentAnswer (tx : Transaction) (intents : List Intent) :
    Option String :=
  match tx.expected_intents with
  | none => none
  | some l => (l.find? (fun p => (intents.map Intent.name).contains p.1)).map Prod.snd

/-- First non-common (app) intent among the intent results. -/
def appIntentAnswer (intents : List Intent) : Option Intent :=
  intents.find? (fun i => !i.is_common_intent)

/-- Embedding of Transaction.is_answered (the unused input parameter is
dropped): an expected entity or intent satisfies the contract with its
action; otherwise a non-common intent satisfies it with a switch
confirmation or NoAction; an unmet expected-text contract is unsupported
and asserts; otherwise the transaction went unanswered. -/
def Transaction.isAnswered (tx : Transaction) (entities : List Entity) (intents : List Intent) :
    PyResult (Bool × Option String) :=
  if !tx.requiresAnswer then .ok (true, none)
  else
    match tx.expectedEntityAnswer entities with
    | some action => .ok (true, some action)
    | none =>
      match tx.expectedIntentAnswer intents with
      | some action => .ok (true, some action)
      | none =>
        match appIntentAnswer intents with
        | some i =>
          let switching : Bool :=
            match tx.active_intent with
            | none => false
            | some a =>
              match tx.completed_intent with
              | none => true
              | some c => !(a.name = c.name)
          if switching then .ok (true, some (VariableActions.ConfirmSwitchIntent ++ i.name))
          else .ok (true, some Actions.NoAction)
        | none =>
          if optDictTruthy tx.expected_text then .error (.assertionError "Not supported yet")
          else .ok (false, none)

/-- Helper of Intent.get_fulfillment_data: the slot-value pairs of the
listed slots, looked up in the slot container. -/
def collectSlotValues (slot_data : List (String × Slot)) :
    List (String × Slot) → PyResult (List (String × Option String))
  | [] => .ok []
  | p :: rest =>
    match alistGet? slot_data p.1 with
    | none => .error (.keyError p.1)
    | some s =>
      match s.value with
      | none => .error (.attributeError "NoneType has no attribute value")
      | some e =>
        match collectSlotValues slot_data rest with
        | .error er => .error er
        | .ok tail => .ok ((p.1, e.value) :: tail)

/-- Embedding of Intent.get_fulfillment_data restricted to its slot-value
map (the id fields are recorded alongside): the value of every slot of the
intent, raising when a slot is missing from the container or unfilled. -/
def Intent.getFulfillmentData (intent : Intent) (slot_data : List (String × Slot)) :
    PyResult (List (String × Option String)) :=
  collectSlotValues slot_data intent.slots

/-- Embedding of Intent.fulfill: always compute and set the fulfillment
data; when a webhook url is configured, POST to it (outcome supplied as an
argument) and persist a Fulfillments record in every case (the finally
block), re-raising the exception of a failed call after recording it.
Returns the call result, the records persisted and the updated intent. -/
def Intent.fulfill (intent : Intent) (convoId : String) (slot_data : List (String × Slot))
    (webhook : WebhookOutcome) :
    PyResult (Option FulfillmentResponse) × List FulfillmentRecord × Intent :=
  match intent.getFulfillmentData slot_data with
  | .error e => (.error e, [], intent)
  | .ok data =>
    let intent := { intent with fulfillment_data := some data }
    match intent.fulfillment with
    | none => (.ok none, [], intent)
    | some url =>
      match webhook with
      | .ok code content status reason action message =>
        let record : FulfillmentRecord :=
          { conversation_id := convoId, url := url, status_code := some code,
            response := content, data := data }
        if status = "" then
          (.error (.assertionError ("Invalid status: " ++ status)), [record], intent)
        else
          (.ok (some { name := intent.name ++ "_fulfillment", status := status,
                       status_reason := reason, action := action, message := message }),
           [record], intent)
      | .httpError code content =>
        (.error (.requestError content),
         [{ conversation_id := convoId, url := url, status_code := some code,
            response := content, data := data }], intent)
      | .transportError msg =>
        (.error (.requestError msg),
         [{ conversation_id := convoId, url := url, status_code := none,
            response := msg, data := data }], intent)

/-- Embedding of Conversation.cancel_intent: record the cancellation on the
transaction, clear the question attempts of the active intent and remove it
(a no-op beyond an error log when no intent is active). -/
def cancelIntent (ct : ConvoTx) : ConvoTx :=
  match ct.convo.active_intent with
  | none => ct
  | some active =>
    let tx := { ct.tx with canceled_intents := ct.tx.canceled_intents ++ [active] }
    let convo := (ct.convo.clearQuestionAttempts active).removeActiveIntent active
    { convo := convo, tx := tx }

/-- Loop of Conversation.fill_intent_slots_with_entities over the entity
results: fill every remaining slot a matching entity exists for, skipping a
slot whose follow-up would be the second one of the turn, and enqueue the
follow-up of a filled slot at the front unless the entity came from
context. -/
def fillSlotsLoop (ct : ConvoTx) (intent : Intent) (remaining : List (String × QMessage))
    (fuAdded : Bool) : List Entity → PyResult (ConvoTx × List (String × QMessage))
  | [] => .ok (ct, remaining)
  | entity :: rest =>
    if alistContains remaining entity.slot_name then
      match alistGet? ct.convo.intents intent.name with
      | none => .error (.keyError intent.name)
      | some stored =>
        match alistGet? stored.slots entity.slot_name with
        | none => .error (.keyError entity.slot_name)
        | some slot =>
          if slot.follow_up.isSome && fuAdded then
            fillSlotsLoop ct intent remaining fuAdded rest
          else
            match fillIntentSlot ct intent entity with
            | .error e => .error e
            | .ok (filled_slot, ct) =>
              let remaining := alistErase remaining entity.slot_name
              match filled_slot.follow_up with
              | some fu =>
                if !entity.from_context then
                  fillSlotsLoop ct intent (odPrepend remaining fu.name (.fUp fu)) true rest
                else
                  fillSlotsLoop ct intent remaining fuAdded rest
              | none => fillSlotsLoop ct intent remaining fuAdded rest
    else fillSlotsLoop ct intent remaining fuAdded rest

/-- Outcome of the help/why preemptive-intent sub-branches: either an early
return from create_response_message or fall through. -/
inductive BranchOutcome where
  | ret (ct : ConvoTx)
  | cont (ct : ConvoTx)
  deriving Repr, DecidableEq

/-- Outcome of one step of the new-intent analysis loop of
create_response_message: continue with updated state (a dropped intent
continues with the state unchanged) or return early from the turn. -/
inductive StepResult where
  | cont (ct : ConvoTx) (greeted : Bool)
  | ret (ct : ConvoTx)
  deriving Repr, DecidableEq

mutual

/-- Embedding of Conversation.do_action: the action dispatcher. -/
def doAction : Nat → ConvoTx → String → Option (List Entity) → Option (List Intent) → Bool →
    PyResult ConvoTx
  | 0, _, _, _, _, _ => .error .nonTermination
  | fuel + 1, ct, action, valid_entities, _valid_intents, skip_common_messages =>
    if action = Actions.NoAction then .ok ct
    else if action = Actions.CancelIntent then .ok (cancelIntent ct)
    else if action = Actions.EndConversation then
      let ct : ConvoTx := { ct with convo := { ct.convo with completed := true } }
      if !skip_common_messages then addCommonResponseMessage fuel ct "goodbye" false
      else .ok ct
    else if action = Actions.ReplaceSlot then
      match getLastTransaction ct with
      | none => .error (.attributeError "NoneType has no attribute slots_filled")
      | some last_tx =>
        if last_tx.slots_filled.isEmpty then
          .error
            (.assertionError "Trying to replace slot but no slot filled on previous transaction")
        else
          match valid_entities with
          | none => .error (.typeError "NoneType is not iterable")
          | some entities =>
            replaceSlotLoop fuel ct (last_tx.slots_filled.map (fun p => p.2.slot_name)) entities
    else if action = Actions.RepeatSlot then
      Conversation.repeatSlotFilled ct
    else if pyStartsWith action VariableActions.RepeatSlotAndRemoveIntent then
      match ct.convo.removeActiveIntentByName
          (pyAfter action VariableActions.RepeatSlotAndRemoveIntent) with
      | .error e => .error e
      | .ok convo => Conversation.repeatSlotFilled { ct with convo := convo }
    else if pyStartsWith action VariableActions.RemoveIntent then
      match ct.convo.removeActiveIntentByName (pyAfter action VariableActions.RemoveIntent) with
      | .error e => .error e
      | .ok convo => .ok { ct with convo := convo }
    else if pyStartsWith action VariableActions.ConfirmSwitchIntent then
      let intent_name := pyAfter action VariableActions.ConfirmSwitchIntent
      let isFu : Bool := match getLastTransaction ct with
        | some lt => (match lt.question with | some (.fUp _) => true | _ => false)
        | none => false
      let ei :=
        if isFu then
          [(CommonIntents.ConfirmYes, Actions.CancelIntent),
           (CommonIntents.ConfirmNo, VariableActions.RepeatSlotAndRemoveIntent ++ intent_name)]
        else
          [(CommonIntents.ConfirmYes, Actions.CancelIntent),
           (CommonIntents.ConfirmNo, VariableActions.RemoveIntent ++ intent_name)]
      addResponseMessageCt ct ("intent_switch:" ++ intent_name)
        (some "Are you sure you want to switch intents?") none (some ei) false
    else if pyStartsWith action VariableActions.Trigger then
      match getTriggeredIntent ct.convo.metadata (pyAfter action VariableActions.Trigger) with
      | .error e => .error e
      | .ok intent =>
        match ct.convo.prependActiveIntent intent with
        | .error e => .error e
        | .ok convo => .ok { ct with convo := convo }
    else .error (.assertionError ("Unrecognized action: " ++ action))

/-- Loop of the ReplaceSlot branch of do_action: refill the slots of the
previous turn from the entity results, chaining at most the follow-up of
each refilled slot (an exhausted follow-up question aborts and returns). -/
def replaceSlotLoop : Nat → ConvoTx → List String → List Entity → PyResult ConvoTx
  | 0, _, _, _ => .error .nonTermination
  | _ + 1, ct, _, [] => .ok ct
  | fuel + 1, ct, filled_slot_names, entity :: rest =>
    if filled_slot_names.contains entity.slot_name then
      match ct.convo.active_intent with
      | none => .error (.attributeError "NoneType has no attribute name")
      | some active =>
        match fillIntentSlot ct active entity with
        | .error e => .error e
        | .ok (filled_slot, ct) =>
          match filled_slot.follow_up with
          | some fu =>
            match getQuestionAndPrompt fuel ct (.fUp fu) with
            | .error e => .error e
            | .ok (none, ct) => .ok ct
            | .ok (some (question, prompt), ct) =>
              match addResponseMessageCt ct (active.name ++ ":" ++ question.name) (some prompt)
                  question.entity_actions question.intent_actions false with
              | .error e => .error e
              | .ok ct => replaceSlotLoop fuel ct filled_slot_names rest
          | none => replaceSlotLoop fuel ct filled_slot_names rest
    else replaceSlotLoop fuel ct filled_slot_names rest

/-- Embedding of Conversation.get_next_question_and_prompt: take the first
remaining question, count the attempt, abort the active intent when the
question is exhausted, otherwise make it the pending question of the turn
and produce its prompt. -/
def getNextQuestionAndPrompt : Nat → ConvoTx → List (String × QMessage) →
    PyResult (Option (QMessage × String) × ConvoTx)
  | 0, _, _ => .error .nonTermination
  | fuel + 1, ct, remaining =>
    match remaining with
    | [] => .error (.indexError "get_next on an empty MessageGroup")
    | (_, question) :: _ =>
      match ct.convo.addQuestionAttempt ct.convo.active_intent question with
      | .error e => .error e
      | .ok (b, convo) =>
        let ct : ConvoTx := { ct with convo := convo }
        if !b then
          match abortIntent fuel ct with
          | .error e => .error e
          | .ok ct => .ok (none, ct)
        else
          match randomChoice question.prompts with
          | .error e => .error e
          | .ok prompt =>
            .ok (some (question, prompt), { ct with tx := { ct.tx with question := some question } })

/-- Embedding of Conversation.get_question_and_prompt. -/
def getQuestionAndPrompt : Nat → ConvoTx → QMessage →
    PyResult (Option (QMessage × String) × ConvoTx)
  | 0, _, _ => .error .nonTermination
  | fuel + 1, ct, question => getNextQuestionAndPrompt fuel ct [(question.name, question)]

/-- Embedding of Conversation.abort_intent: record the abort on the
transaction, emit the intent_aborted common message, clear the question
attempts of the intent and remove it from the active queue. -/
def abortIntent : Nat → ConvoTx → PyResult ConvoTx
  | 0, _ => .error .nonTermination
  | fuel + 1, ct =>
    match ct.convo.active_intent with
    | none => .ok ct
    | some active =>
      let tx := { ct.tx with aborted_intents := ct.tx.aborted_intents ++ [active] }
      match addCommonResponseMessage fuel { ct with tx := tx } "intent_aborted" false with
      | .error e => .error e
      | .ok ct =>
        .ok { ct with convo := (ct.convo.clearQuestionAttempts active).removeActiveIntent active }

/-- Embedding of Conversation.add_common_response_message: look the message
up in bot metadata, pick a prompt, dispatch a configured action (skipping
common messages when a prompt was picked) and add the message with its
answer contracts. -/
def addCommonResponseMessage : Nat → ConvoTx → String → Bool → PyResult ConvoTx
  | 0, _, _, _ => .error .nonTermination
  | fuel + 1, ct, message_name, prependFlag =>
    match alistGet? ct.convo.metadata.COMMON_MESSAGES message_name with
    | none => .error (.keyError message_name)
    | some message_info =>
      match message_info with
      | .empty => addResponseMessageCt ct message_name none none none prependFlag
      | .text s => addResponseMessageCt ct message_name (some s) none none prependFlag
      | .texts ss =>
        match randomChoice ss with
        | .error e => .error e
        | .ok m => addResponseMessageCt ct message_name (some m) none none prependFlag
      | .info prompts ea ia action =>
        let messageR : PyResult (Option String) :=
          match prompts with
          | none => .ok none
          | some ps =>
            match randomChoice ps with
            | .error e => .error e
            | .ok m => .ok (some m)
        match messageR with
        | .error e => .error e
        | .ok message =>
          let ctR : PyResult ConvoTx :=
            match action with
            | none => .ok ct
            | some a => doAction fuel ct a none none (!(message.getD "").isEmpty)
          match ctR with
          | .error e => .error e
          | .ok ct => addResponseMessageCt ct message_name message ea ia prependFlag

/-- Embedding of the Repeat-intent branch of create_response_message (the
body under `intent.name == CommonIntents.Repeat`): with a previous turn,
either the consecutive-repeat cap was hit (emit repeat_exhausted), or the
turn is replayed when repeatable and the active intent aborted otherwise;
with no previous turn, fall back (subject to the fallback cap). -/
def handleRepeatIntent : Nat → ConvoTx → PyResult ConvoTx
  | 0, _ => .error .nonTermination
  | fuel + 1, ct =>
    match getLastTransaction ct with
    | some last_tx =>
      if ct.convo.consecutive_repeat_count ≥ ct.convo.metadata.MAX_CONSECUTIVE_REPEAT_ATTEMPTS then
        addCommonResponseMessage fuel ct "repeat_exhausted" false
      else
        match transactionRepeatable ct last_tx with
        | .error e => .error e
        | .ok true => repeatTransaction ct last_tx (some "user request") false
        | .ok false => abortIntent fuel ct
    | none =>
      if (alistGet? ct.convo.consecutive_message_count "fallback").getD 0 ≥
          ct.convo.metadata.MAX_CONSECUTIVE_MESSAGE_ATTEMPTS then
        addCommonResponseMessage fuel ct "message_exhausted" false
      else
        addCommonResponseMessage fuel ct "fallback" false

/-- Embedding of the Help-intent branch of create_response_message: emit
the most specific help text available (question, then active intent, then
the global help message), returning early only when the per-key
consecutive-message cap was hit. -/
def helpBranch : Nat → ConvoTx → PyResult BranchOutcome
  | 0, _ => .error .nonTermination
  | fuel + 1, ct =>
    let md := ct.convo.metadata
    let qHelp : Option (String × List String) := match getLastTransaction ct with
      | some lt =>
        match lt.question with
        | some q =>
          match q.help with
          | some (h :: hs) => some (q.name, h :: hs)
          | _ => none
        | none => none
      | none => none
    let aHelp : Option (String × List String) := match ct.convo.active_intent with
      | some a =>
        match a.help with
        | some (h :: hs) => some (a.name, h :: hs)
        | _ => none
      | none => none
    match qHelp with
    | some (qname, helps) =>
      let msg_name := qname ++ ":help"
      if (alistGet? ct.convo.consecutive_message_count msg_name).getD 0 ≥
          md.MAX_CONSECUTIVE_MESSAGE_ATTEMPTS then
        match addCommonResponseMessage fuel ct "message_exhausted" false with
        | .error e => .error e
        | .ok ct => .ok (.ret ct)
      else
        match addResponseMessageCt ct msg_name (some (helps.headD "")) none none false with
        | .error e => .error e
        | .ok ct => .ok (.cont ct)
    | none =>
      match aHelp with
      | some (aname, helps) =>
        let msg_name := aname ++ ":help"
        if (alistGet? ct.convo.consecutive_message_count msg_name).getD 0 ≥
            md.MAX_CONSECUTIVE_MESSAGE_ATTEMPTS then
          match addCommonResponseMessage fuel ct "message_exhausted" false with
          | .error e => .error e
          | .ok ct => .ok (.ret ct)
        else
          match addResponseMessageCt ct msg_name (some (helps.headD "")) none none false with
          | .error e => .error e
          | .ok ct => .ok (.cont ct)
      | none =>
        if (alistGet? ct.convo.consecutive_message_count "help").getD 0 ≥
            md.MAX_CONSECUTIVE_MESSAGE_ATTEMPTS then
          match addCommonResponseMessage fuel ct "message_exhausted" false with
          | .error e => .error e
          | .ok ct => .ok (.ret ct)
        else
          match addCommonResponseMessage fuel ct "help" false with
          | .error e => .error e
          | .ok ct => .ok (.cont ct)

/-- Embedding of the Why-intent branch of create_response_message,
symmetric to the Help branch. -/
def whyBranch : Nat → ConvoTx → PyResult BranchOutcome
  | 0, _ => .error .nonTermination
  | fuel + 1, ct =>
    let md := ct.convo.metadata
    let qWhy : Option (String × List String) := match getLastTransaction ct with
      | some lt =>
        match lt.question with
        | some q =>
          match q.why with
          | some (h :: hs) => some (q.name, h :: hs)
          | _ => none
        | none => none
      | none => none
    let aWhy : Option (String × List String) := match ct.convo.active_intent with
      | some a =>
        match a.why with
        | some (h :: hs) => some (a.name, h :: hs)
        | _ => none
      | none => none
    match qWhy with
    | some (qname, whys) =>
      let msg_name := qname ++ ":why"
      if (alistGet? ct.convo.consecutive_message_count msg_name).getD 0 ≥
          md.MAX_CONSECUTIVE_MESSAGE_ATTEMPTS then
        match addCommonResponseMessage fuel ct "message_exhausted" false with
        | .error e => .error e
        | .ok ct => .ok (.ret ct)
      else
        match addResponseMessageCt ct msg_name (some (whys.headD "")) none none false with
        | .error e => .error e
        | .ok ct => .ok (.cont ct)
    | none =>
      match aWhy with
      | some (aname, whys) =>
        let msg_name := aname ++ ":why"
        if (alistGet? ct.convo.consecutive_message_count msg_name).getD 0 ≥
            md.MAX_CONSECUTIVE_MESSAGE_ATTEMPTS then
          match addCommonResponseMessage fuel ct "message_exhausted" false with
          | .error e => .error e
          | .ok ct => .ok (.ret ct)
        else
          match addResponseMessageCt ct msg_name (some (whys.headD "")) none none false with
          | .error e => .error e
          | .ok ct => .ok (.cont ct)
      | none =>
        if (alistGet? ct.convo.consecutive_message_count "why").getD 0 ≥
            md.MAX_CONSECUTIVE_MESSAGE_ATTEMPTS then
          match addCommonResponseMessage fuel ct "message_exhausted" false with
          | .error e => .error e
          | .ok ct => .ok (.ret ct)
        else
          match addCommonResponseMessage fuel ct "why" false with
          | .error e => .error e
          | .ok ct => .ok (.cont ct)

/-- Embedding of one iteration of the new-intent analysis loop of
create_response_message (position i in the valid-intent list): greeting
intents are dropped unless they are the top candidate of the first turn;
already-active non-repeatable intents are dropped; preemptive intents are
pushed to the front of the queue and dispatched (Cancel, Repeat, Help,
Why); other intents are appended to the queue as new active intents. -/
def classifyStep : Nat → ConvoTx → Bool → Nat → Intent → PyResult StepResult
  | 0, _, _, _, _ => .error .nonTermination
  | fuel + 1, ct, greeted, i, intent =>
    if intent.is_greeting && decide (0 < i) then .ok (.cont ct greeted)
    else if intent.is_greeting && (getLastTransaction ct).isSome then .ok (.cont ct greeted)
    else if alistContains ct.convo.active_intents intent.name && !intent.repeatable then
      .ok (.cont ct greeted)
    else if intent.preemptive then
      match ct.convo.prependActiveIntent intent with
      | .error e => .error e
      | .ok convo =>
        let ct : ConvoTx := { convo := convo,
                              tx := { ct.tx with new_intents := intent :: ct.tx.new_intents } }
        if intent.name = CommonIntents.Cancel then
          match addCommonResponseMessage fuel ct "intent_canceled" false with
          | .error e => .error e
          | .ok ct => .ok (.ret ct)
        else if intent.name = CommonIntents.Repeat then
          match handleRepeatIntent fuel ct with
          | .error e => .error e
          | .ok ct => .ok (.ret ct)
        else
          let r1 : PyResult BranchOutcome :=
            if intent.name = CommonIntents.Help then helpBranch fuel ct
            else .ok (.cont ct)
          match r1 with
          | .error e => .error e
          | .ok (.ret ct) => .ok (.ret ct)
          | .ok (.cont ct) =>
            let r2 : PyResult BranchOutcome :=
              if intent.name = CommonIntents.Why then whyBranch fuel ct
              else .ok (.cont ct)
            match r2 with
            | .error e => .error e
            | .ok (.ret ct) => .ok (.ret ct)
            | .ok (.cont ct) => .ok (.cont ct greeted)
    else
      match ct.convo.addActiveIntent intent with
      | .error e => .error e
      | .ok convo =>
        .ok (.cont { convo := convo,
                     tx := { ct.tx with new_intents := ct.tx.new_intents ++ [intent] } }
          (greeted || intent.is_greeting))

/-- Embedding of Conversation.add_completed_intent: fulfill the intent and
process the fulfillment response (warning on failure, adding its message,
dispatching its action); the finally block moves the intent to completed
and records it on the transaction in every case, re-raising any error
afterwards. -/
def addCompletedIntent : Nat → ConvoTx → Intent → WebhookOutcome → ConvoTx × Option PyErr
  | 0, ct, _, _ => (ct, some .nonTermination)
  | fuel + 1, ct, intent, webhook =>
    let body : ConvoTx × Intent × Option PyErr :=
      match ct.convo.getIntentSlots intent with
      | .error e => (ct, intent, some e)
      | .ok slots =>
        match intent.fulfill ct.convo.id slots webhook with
        | (res, records, intent) =>
          let ct : ConvoTx :=
            { ct with convo :=
              { ct.convo with fulfillments := ct.convo.fulfillments ++ records } }
          match res with
          | .error e => (ct, intent, some e)
          | .ok none => (ct, intent, none)
          | .ok (some response) =>
            let afterMsg : PyResult ConvoTx :=
              match response.message with
              | none => .ok ct
              | some msg =>
                match randomChoice msg.prompts with
                | .error e => .error e
                | .ok prompt =>
                  addResponseMessageCt ct msg.name (some prompt) msg.entity_actions
                    msg.intent_actions false
            match afterMsg with
            | .error e => (ct, intent, some e)
            | .ok ct =>
              match response.action with
              | none => (ct, intent, none)
              | some a =>
                match doAction fuel ct a none none response.message.isSome with
                | .error e => (ct, intent, some e)
                | .ok ct => (ct, intent, none)
    match body with
    | (ctB, intentF, err) =>
      let convo := ctB.convo
      let convo :=
        { convo with completed_intents := odSet convo.completed_intents intentF.name intentF }
      let convo := convo.removeActiveIntent intentF
      ({ convo := convo, tx := { ctB.tx with completed_intent := some intentF } }, err)

/-- Embedding of Conversation.active_intent_completed. -/
def activeIntentCompleted : Nat → ConvoTx → WebhookOutcome → PyResult ConvoTx
  | 0, _, _ => .error .nonTermination
  | fuel + 1, ct, webhook =>
    match ct.convo.active_intent with
    | none => .ok ct
    | some a =>
      match addCompletedIntent fuel ct a webhook with
      | (_, some e) => .error e
      | (ct, none) => .ok { ct with convo := { ct.convo with active_intent := none } }

/-- Embedding of Conversation.fill_intent_slots_with_entities: compute the
remaining slots, fill them from the entity results, and complete the
intent when nothing remains to ask. -/
def fillIntentSlotsWithEntities : Nat → ConvoTx → Intent → List Entity → WebhookOutcome →
    PyResult (List (String × QMessage) × ConvoTx)
  | 0, _, _, _, _ => .error .nonTermination
  | fuel + 1, ct, intent, entities, webhook =>
    let stored := (alistGet? ct.convo.intents intent.name).getD intent
    let remaining := stored.getRemainingIntentSlots
    if entities.isEmpty then .ok (remaining, ct)
    else if remaining.isEmpty then .ok (remaining, ct)
    else
      match fillSlotsLoop ct intent remaining false entities with
      | .error e => .error e
      | .ok (ct, remaining) =>
        if remaining.isEmpty then
          let isActive : Bool := match ct.convo.active_intent with
            | some a => a.name = intent.name
            | none => false
          if isActive then
            match activeIntentCompleted fuel ct webhook with
            | .error e => .error e
            | .ok ct => .ok (remaining, ct)
          else
            match addCompletedIntent fuel ct intent webhook with
            | (_, some e) => .error e
            | (ct, none) => .ok (remaining, ct)
        else .ok (remaining, ct)

end

/-- The new-intent analysis loop of create_response_message over the valid
intent results (i is the enumerate index). -/
def classifyNewIntents (fuel : Nat) : ConvoTx → Bool → Nat →
    List Intent → PyResult (ConvoTx × Bool × Bool)
  | ct, greeted, _, [] => .ok (ct, greeted, false)
  | ct, greeted, i, intent :: rest =>
    match classifyStep fuel ct greeted i intent with
    | .error e => .error e
    | .ok (.ret ct) => .ok (ct, greeted, true)
    | .ok (.cont ct greeted) => classifyNewIntents fuel ct greeted (i + 1) rest

/-- Embedding of the consecutive-repeat counter update at the end of
Conversation.reply: a replayed turn (one holding a repeat link) increments
the counter, any other turn resets it to zero. -/
def updateConsecutiveRepeatCount (tx : Transaction) (count : Nat) : Nat :=
  if tx.repeat_id.isSome then count + 1 else 0

/-- Key order of the python 2 sort the IntentResponse constructor applies:
a missing score sorts below every number. -/
def scoreGe (a b : Option ℚ) : Bool :=
  match a, b with
  | none, none => true
  | none, some _ => false
  | some _, none => true
  | some qa, some qb => qa ≥ qb

/-- Stable insertion of an intent into a score-descending list: the intent
goes after every earlier intent whose score is at least its own. -/
def insertByScoreDesc (x : Intent) : List Intent → List Intent
  | [] => [x]
  | y :: t => if scoreGe y.score x.score then y :: insertByScoreDesc x t else x :: y :: t

/-- Stable score-descending sort (the IntentResponse constructor applies
sorted with reverse=True, which is stable). -/
def sortIntentsByScoreDesc (l : List Intent) : List Intent :=
  l.foldl (fun acc x => insertByScoreDesc x acc) []

/-- Embedding of the IntentResponse class: the NLU result of one turn with
its intent candidates (score-descending) and entity candidates. -/
structure IntentResponse where
  query : Option String := none
  intents : List Intent := []
  entities : List Entity := []
  deriving Repr, DecidableEq

/-- Embedding of the IntentResponse constructor: assert a candidate exists
and sort the candidates by score, best first. -/
def IntentResponse.make (query : Option String) (intents : List Intent)
    (entities : List Entity) : PyResult IntentResponse :=
  if intents.isEmpty then .error (.assertionError "intents")
  else .ok { query := query, intents := sortIntentsByScoreDesc intents, entities := entities }

/-- Embedding of IntentResponse.filter_intents: keep a candidate whose
score is absent or above the threshold, dropping the None intent. -/
def IntentResponse.filterIntents (r : IntentResponse) (score : ℚ) : List Intent :=
  r.intents.filter (fun x => (x.score.isNone || decide ((x.score.getD 0) > score)) && !(x.name = "None"))

/-- Embedding of IntentResponse.filter_entities. -/
def IntentResponse.filterEntities (r : IntentResponse) (score : ℚ) : List Entity :=
  r.entities.filter (fun x => x.score.isNone || decide ((x.score.getD 0) > score))

/-- Embedding of IntentResponse.get_valid. -/
def IntentResponse.getValid (r : IntentResponse) (intent_threshold entity_threshold : ℚ) :
    List Intent × List Entity :=
  (r.filterIntents intent_threshold, r.filterEntities entity_threshold)

/-- Embedding of IntentResponse.add_entities_from_context: append one
zero-ambiguity entity per context pair, flagged from_context. -/
def IntentResponse.addEntitiesFromContext (r : IntentResponse)
    (context : List (String × String)) : IntentResponse :=
  { r with entities := r.entities ++ context.map (fun p =>
      { name := p.1, type := p.1, value := some p.2, from_context := true }) }

/-- Candidate lists Conversation.process_intent_response hands to
create_response_message: get_valid under the configured thresholds, with no
further clipping. -/
def processIntentResponseValid (md : Metadata) (r : IntentResponse) :
    List Intent × List Entity :=
  r.getValid md.INTENT_FILTER_THRESHOLD md.ENTITY_FILTER_THRESHOLD

/-! Concrete fixtures used by witnesses and counterexamples. -/

/-- Slot question of the witness scenarios. -/
def qC2 : QMessage := .slot { name := "size", prompts := ["what size would you like"] }

/-- App intent of the witness scenarios. -/
def intentC2 : Intent := { name := "OrderPizza" }

/-- Conversation whose size question already has MAX_QUESTION_ATTEMPTS
attempts recorded. -/
def ctC2 : ConvoTx :=
  { convo := { active_intent := some intentC2,
               question_attempts := [("OrderPizza", QAEntry.dict [("size", 2)])] },
    tx := {} }

/-- Metadata whose repeat_exhausted message has the default shape (one
prompt and the EndConversation action). -/
def mdC3 : Metadata :=
  { COMMON_MESSAGES := [("repeat_exhausted",
      .info (some ["I cannot help right now"]) none none (some Actions.EndConversation))] }

/-- Previous turn of the repeat-exhausted scenario. -/
def lastTxC3 : Transaction := { id := "t1", response_messages := [("greeting", some "Hi.")] }

/-- Conversation whose consecutive-repeat counter has reached the cap. -/
def ctC3 : ConvoTx :=
  { convo := { metadata := mdC3, transactions := [("t1", lastTxC3)],
               consecutive_repeat_count := 2 },
    tx := { id := "t2" } }

/-- Transaction expecting a ConfirmYes answer (an intent contract whose
key no result below matches). -/
def txC4 : Transaction :=
  { expected_intents := some [(CommonIntents.ConfirmYes, Actions.NoAction)] }

/-- Intent results carrying only a non-common (app) intent. -/
def intentsC4 : List Intent := [{ name := "OrderPizza" }]

/-- Greeting-flagged intent result. -/
def greetC5 : Intent := { name := "Greeting", is_greeting := true, score := some 1 }

/-- Conversation that already has a previous transaction. -/
def ctC5 : ConvoTx :=
  { convo := { transactions := [("t1", { id := "t1" })] }, tx := { id := "t2" } }

/-- Entity filling the slot of the fulfillment scenario. -/
def entC6 : Entity := { name := "size", type := "size", value := some "large" }

/-- Slot of the fulfillment scenario, already filled. -/
def slotC6 : Slot := { name := "size", prompts := ["what size"], value := some entC6 }

/-- Intent with a fulfillment webhook and one filled slot. -/
def intentC6 : Intent :=
  { name := "Order", fulfillment := some "url1", slots := [("size", slotC6)] }

/-- Conversation in which intentC6 is registered and active. -/
def ctC6 : ConvoTx :=
  { convo := { intents := [("Order", intentC6)], active_intents := [("Order", intentC6)] },
    tx := {} }

/-- Metadata defining the intent_aborted common message. -/
def mdC9 : Metadata :=
  { COMMON_MESSAGES := [("intent_aborted", .texts ["I am unable to help"])] }

/-- Intent of the abort scenario. -/
def intentC9 : Intent := { name := "BookTable" }

/-- Question of the abort scenario, with one attempt recorded. -/
def qC9 : QMessage := .slot { name := "when", prompts := ["for when"] }

/-- Conversation with BookTable active and one question attempt stored. -/
def ctC9 : ConvoTx :=
  { convo := { metadata := mdC9,
               intents := [("BookTable", intentC9)],
               active_intents := [("BookTable", intentC9)],
               active_intent := some intentC9,
               question_attempts := [("BookTable", QAEntry.dict [("when", 1)])] },
    tx := {} }

/-- Slot carrying a follow-up confirmation, of the context-fill scenario. -/
def slotC7 : Slot :=
  { name := "city", prompts := ["which city"],
    follow_up := some { name := "confirm_city", prompts := ["is that right"] } }

/-- Intent whose only slot carries a follow-up and no webhook. -/
def intentC7 : Intent := { name := "Weather", slots := [("city", slotC7)] }

/-- Context-sourced entity covering the city slot. -/
def entC7 : Entity :=
  { name := "city", type := "city", value := some "Paris", from_context := true }

/-- Conversation in which intentC7 is registered and no intent is active. -/
def ctC7 : ConvoTx := { convo := { intents := [("Weather", intentC7)] }, tx := {} }

/-! Association-list lemmas shared by the claim proofs. -/

theorem alistGet?_odSet_self {α : Type} (l : List (String × α)) (k : String) (v : α) :
    alistGet? (odSet l k v) k = some v := by
  induction l with
  | nil => simp [odSet, alistGet?]
  | cons p t ih =>
    by_cases h : p.1 = k
    · simp [odSet, alistGet?, h]
    · simp [odSet, alistGet?, h, ih]

theorem alistGet?_odSet_ne {α : Type} (l : List (String × α)) (k k' : String) (v : α)
    (h : k' ≠ k) : alistGet? (odSet l k v) k' = alistGet? l k' := by
  have hkk : ¬(k = k') := fun he => h he.symm
  induction l with
  | nil => simp [odSet, alistGet?, hkk]
  | cons p t ih =>
    by_cases hp : p.1 = k
    · subst hp
      simp [odSet, alistGet?, hkk]
    · simp [odSet, alistGet?, hp, ih]

theorem alistGet?_alistErase_self {α : Type} (l : List (String × α)) (k : String) :
    alistGet? (alistErase l k) k = none := by
  induction l with
  | nil => simp [alistErase, alistGet?]
  | cons p t ih =>
    by_cases h : p.1 = k
    · simpa [alistErase, alistGet?, h] using ih
    · simpa [alistErase, alistGet?, h] using ih

theorem pyEndsWith_append_period (s : String) : pyEndsWith (s ++ ".") '.' = true := by
  have : (s ++ ".").data = s.data ++ ['.'] := by rfl
  simp [pyEndsWith, String.toList, this, List.getLast?_concat]

/-! Claim C10. -/

/-- C10: for every non-empty message string passed to
Transaction.add_response_message, the stored response message is the
stripped input terminated by a period or question mark: a period is
appended whenever the stripped message does not already end in one of the
two (in particular a message ending in an exclamation mark gains a trailing
period), and the stored message always ends in a period or question mark. -/
theorem c10_stored_message_stripped_and_terminated (tx : Transaction) (name msg : String)
    (ctx : List (String × Option String)) (pr : Bool)
    (hne : msg ≠ "")
    (hfmt : getStringFormatArgs (terminateSentence (pyStrip msg)) = []) :
    ∃ tx', tx.addResponseMessage name (some msg) ctx none none none pr = .ok tx' ∧
      alistGet? tx'.response_messages name = some (some (terminateSentence (pyStrip msg))) ∧
      (pyEndsWith (terminateSentence (pyStrip msg)) '.' = true ∨
       pyEndsWith (terminateSentence (pyStrip msg)) '?' = true) := by
  have hmsg : processResponseMessage (some msg) ctx =
      .ok (some (terminateSentence (pyStrip msg))) := by
    simp [processResponseMessage, hne, hfmt]
  have hend : pyEndsWith (terminateSentence (pyStrip msg)) '.' = true ∨
      pyEndsWith (terminateSentence (pyStrip msg)) '?' = true := by
    by_cases h : (pyEndsWith (pyStrip msg) '.' || pyEndsWith (pyStrip msg) '?') = true
    · rw [terminateSentence, if_pos h]
      rcases Bool.or_eq_true_iff.mp h with h1 | h1
      · exact Or.inl h1
      · exact Or.inr h1
    · rw [terminateSentence, if_neg h]
      exact Or.inl (pyEndsWith_append_period (pyStrip msg))
  cases pr with
  | false =>
    exact ⟨{ tx with response_messages := odSet tx.response_messages name (some (terminateSentence (pyStrip msg))) },
      by simp [Transaction.addResponseMessage, hmsg, Transaction.setExpectedAnswers, optDictTruthy],
      by simp [alistGet?_odSet_self], hend⟩
  | true =>
    exact ⟨{ tx with response_messages := odPrepend tx.response_messages name (some (terminateSentence (pyStrip msg))) },
      by simp [Transaction.addResponseMessage, hmsg, Transaction.setExpectedAnswers, optDictTruthy],
      by simp [odPrepend, alistGet?], hend⟩

/-- C10 witness: the theorem applied to the message "hello there!" (whose
stripped form gains a trailing period). -/
theorem c10_witness :
    ∃ tx', Transaction.addResponseMessage {} "m" (some " hello there! ") [] none none none
        false = .ok tx' ∧
      alistGet? tx'.response_messages "m" =
        some (some (terminateSentence (pyStrip " hello there! "))) ∧
      (pyEndsWith (terminateSentence (pyStrip " hello there! ")) '.' = true ∨
       pyEndsWith (terminateSentence (pyStrip " hello there! ")) '?' = true) :=
  c10_stored_message_stripped_and_terminated {} "m" " hello there! " [] false
    (by decide) (by decide)

/-! Claim C1. -/

/-- C1 (amended): a transaction admits at most one contract-setting call:
any call to add_response_message that would set an expected-answer field
while the transaction already requires an answer fails with the fatal
assertion rather than overwriting the contract.  (A single call may set
expected_entities and expected_intents together, so two of the three fields
can be non-empty after one call; see the counterexample.) -/
theorem c1_single_answer_contract (tx : Transaction) (name : String) (msg : Option String)
    (ctx : List (String × Option String)) (m' : Option String)
    (ee ei et : Option (List (String × String))) (pr : Bool)
    (hmsg : processResponseMessage msg ctx = .ok m')
    (hreq : tx.requiresAnswer = true)
    (hset : (optDictTruthy ee || optDictTruthy ei || optDictTruthy et) = true) :
    tx.addResponseMessage name msg ctx ee ei et pr =
      .error (.assertionError "A transaction can only require a single answer") := by
  have hreq' : ∀ rm, Transaction.requiresAnswer { tx with response_messages := rm } = true := by
    intro rm
    simpa [Transaction.requiresAnswer] using hreq
  rw [Transaction.addResponseMessage, hmsg]
  simp [Transaction.setExpectedAnswers, hset, hreq']

/-- C1 witness: a transaction already expecting the size entity rejects a
second contract-setting call. -/
theorem c1_single_answer_contract_witness :
    Transaction.addResponseMessage
        ({ expected_entities := some [("size", Actions.NoAction)] }) "q2" (some "and the color")
        [] none (some [(CommonIntents.ConfirmYes, Actions.NoAction)]) none false =
      .error (.assertionError "A transaction can only require a single answer") :=
  c1_single_answer_contract _ "q2" (some "and the color") [] (some "and the color.")
    none (some [(CommonIntents.ConfirmYes, Actions.NoAction)]) none false
    (by rfl) (by decide) (by decide)

/-- C1 counterexample: a single follow-up-style call on a fresh transaction
sets expected_entities and expected_intents together (exactly what the
source does when it asks a follow-up question), so two of the three
expected-answer fields are non-empty at the completion of the turn,
refuting the at-most-one-non-empty-field reading. -/
theorem c1_counterexample :
    (Transaction.addResponseMessage {} "size_follow_up" (some "Is that the right size")
        [] (some [("size", Actions.ReplaceSlot)])
        (some [(CommonIntents.ConfirmYes, Actions.NoAction),
               (CommonIntents.ConfirmNo, Actions.RepeatSlot)]) none false).map
      (fun t => (optDictTruthy t.expected_entities, optDictTruthy t.expected_intents)) =
    .ok (true, true) := by rfl

/-! Claim C2. -/

/-- C2: for a fixed (intent, question) pair the stored attempt counter
never exceeds MAX_QUESTION_ATTEMPTS: a call at (or beyond) the cap returns
False and leaves the counter unchanged, a call below the cap increments it
(staying within the cap), and when get_next_question_and_prompt receives
the failure it aborts the active intent and returns no question instead of
asking it again. -/
theorem c2_question_attempts_capped (ct : ConvoTx) (intent : Intent) (q : QMessage)
    (cur : Nat) (fuel : Nat) (rest : List (String × QMessage)) (qk : String)
    (hact : ct.convo.active_intent = some intent)
    (hcur : ct.convo.getQuestionAttempts (some intent) q = .ok cur) :
    (ct.convo.metadata.MAX_QUESTION_ATTEMPTS ≤ cur →
      ∃ convo', ct.convo.addQuestionAttempt (some intent) q = .ok (false, convo') ∧
        convo'.getQuestionAttempts (some intent) q = .ok cur) ∧
    (cur < ct.convo.metadata.MAX_QUESTION_ATTEMPTS →
      ∃ convo', ct.convo.addQuestionAttempt (some intent) q = .ok (true, convo') ∧
        convo'.getQuestionAttempts (some intent) q = .ok (cur + 1) ∧
        cur + 1 ≤ ct.convo.metadata.MAX_QUESTION_ATTEMPTS) ∧
    (∀ convo', ct.convo.addQuestionAttempt (some intent) q = .ok (false, convo') →
      getNextQuestionAndPrompt (fuel + 1) ct ((qk, q) :: rest) =
        (abortIntent fuel { convo := convo', tx := ct.tx }).map (fun c => (none, c))) := by
  refine ⟨?_, ?_, ?_⟩
  case refine_3 =>
    intro convo' haq
    rw [getNextQuestionAndPrompt, hact, haq]
    cases habort : abortIntent fuel { convo := convo', tx := ct.tx } <;>
      simp [Except.map, habort]
  all_goals
    rw [Conversation.getQuestionAttempts] at hcur
    rw [Conversation.addQuestionAttempt]
    rcases hga : alistGet? ct.convo.question_attempts intent.name with _ | (n | d)
  -- MAX ≤ cur, no counter entry yet (cur = 0, so MAX = 0)
  · rw [hga] at hcur
    injection hcur with hcur0
    intro hle
    have hmax : ct.convo.metadata.MAX_QUESTION_ATTEMPTS = 0 := by omega
    simp only [hga, hmax, alistContains, alistGet?_odSet_self, alistGet?, odSet,
      Option.isSome_none, Option.isSome_some, Bool.false_eq_true, if_false, reduceIte,
      Option.getD_some, Option.getD_none, Nat.zero_add, gt_iff_lt, Nat.zero_lt_succ, if_true]
    refine ⟨_, rfl, ?_⟩
    rw [Conversation.getQuestionAttempts]
    simp [alistGet?_odSet_self, alistGet?, ← hcur0]
  -- MAX ≤ cur, entry is the integer 0 written by clear_question_attempts:
  -- get_question_attempts cannot have returned ok, contradiction
  · rw [hga] at hcur
    simp at hcur
  -- MAX ≤ cur, entry is a counter dict
  · rw [hga] at hcur
    injection hcur with hcur0
    intro hle
    have hc : alistContains ct.convo.question_attempts intent.name = true := by
      simp [alistContains, hga]
    have hd' : (alistGet? (if alistContains d q.name then d else odSet d q.name 0) q.name).getD 0
        = cur := by
      by_cases hq : alistContains d q.name
      · simpa [hq] using hcur0
      · have hn : alistGet? d q.name = none := by
          cases hh : alistGet? d q.name
          · rfl
          · exact absurd (by simp [alistContains, hh]) hq
        rw [hn] at hcur0
        simp only [hq, Bool.false_eq_true, if_false, alistGet?_odSet_self]
        simpa using hcur0
    simp only [hc, if_true, hga, hd']
    split
    · refine ⟨_, rfl, ?_⟩
      rw [Conversation.getQuestionAttempts]
      simp [alistGet?_odSet_self, hd']
    · omega
  -- cur < MAX, no counter entry yet
  · rw [hga] at hcur
    injection hcur with hcur0
    intro hlt
    have h1 : ¬ (1 > ct.convo.metadata.MAX_QUESTION_ATTEMPTS) := by omega
    simp only [hga, alistContains, alistGet?_odSet_self, alistGet?, odSet,
      Option.isSome_none, Option.isSome_some, Bool.false_eq_true, if_false, reduceIte,
      Option.getD_some, Option.getD_none, Nat.zero_add, h1]
    refine ⟨_, rfl, ?_, by omega⟩
    rw [Conversation.getQuestionAttempts]
    simp [alistGet?_odSet_self, alistGet?, ← hcur0]
  -- cur < MAX, entry is the integer 0: contradiction with hcur
  · rw [hga] at hcur
    simp at hcur
  -- cur < MAX, entry is a counter dict
  · rw [hga] at hcur
    injection hcur with hcur0
    intro hlt
    have hc : alistContains ct.convo.question_attempts intent.name = true := by
      simp [alistContains, hga]
    have hd' : (alistGet? (if alistContains d q.name then d else odSet d q.name 0) q.name).getD 0
        = cur := by
      by_cases hq : alistContains d q.name
      · simpa [hq] using hcur0
      · have hn : alistGet? d q.name = none := by
          cases hh : alistGet? d q.name
          · rfl
          · exact absurd (by simp [alistContains, hh]) hq
        rw [hn] at hcur0
        simp only [hq, Bool.false_eq_true, if_false, alistGet?_odSet_self]
        simpa using hcur0
    simp only [hc, if_true, hga, hd']
    split
    · omega
    · refine ⟨_, rfl, ?_, by omega⟩
      rw [Conversation.getQuestionAttempts]
      simp [alistGet?_odSet_self, hd']

/-- C2 witness: at the default cap of 2, a third attempt for the same
(intent, question) pair is refused and the stored counter stays at 2. -/
theorem c2_question_attempts_capped_witness :
    ∃ convo', ctC2.convo.addQuestionAttempt (some intentC2) qC2 = .ok (false, convo') ∧
      convo'.getQuestionAttempts (some intentC2) qC2 = .ok 2 :=
  (c2_question_attempts_capped ctC2 intentC2 qC2 2 3 [] "size" rfl rfl).1 (by decide)

/-! Claim C3. -/

/-- C3: once the consecutive-repeat counter (incremented by reply on every
turn whose transaction carries a repeat link and reset to zero otherwise)
has reached MAX_CONSECUTIVE_REPEAT_ATTEMPTS, the next turn carrying a
Repeat intent emits the repeat_exhausted message and does not replay the
previous transaction (the repeat link of the turn stays unset); with the
default metadata shape the repeat_exhausted action also ends the
conversation. -/
theorem c3_repeat_bounded (fuel : Nat) (ct : ConvoTx) (last : Transaction)
    (m : String) (ms : List String) (m' : Option String)
    (hlast : getLastTransaction ct = some last)
    (hcap : ct.convo.metadata.MAX_CONSECUTIVE_REPEAT_ATTEMPTS ≤ ct.convo.consecutive_repeat_count)
    (hmi : alistGet? ct.convo.metadata.COMMON_MESSAGES "repeat_exhausted" =
      some (.info (some (m :: ms)) none none (some Actions.EndConversation)))
    (hm : m.isEmpty = false)
    (hmsg : processResponseMessage (some m)
      (Conversation.getMessageContext { ct.convo with completed := true }) = .ok m') :
    (∃ ct', handleRepeatIntent (fuel + 3) ct = .ok ct' ∧
      alistGet? ct'.tx.response_messages "repeat_exhausted" = some m' ∧
      ct'.tx.repeat_id = ct.tx.repeat_id ∧
      ct'.convo.completed = true) ∧
    (∀ tx c, updateConsecutiveRepeatCount tx c = if tx.repeat_id.isSome then c + 1 else 0) := by
  refine ⟨?_, fun tx c => rfl⟩
  have h3 : fuel + 3 = (fuel + 2) + 1 := rfl
  have h2 : fuel + 2 = (fuel + 1) + 1 := rfl
  have hdo : doAction (fuel + 1) ct Actions.EndConversation none none true =
      .ok { ct with convo := { ct.convo with completed := true } } := rfl
  rw [h3, handleRepeatIntent, hlast]
  simp only [ge_iff_le]
  rw [if_pos hcap, h2, addCommonResponseMessage, hmi]
  simp only [randomChoice, Option.getD_some, hm, Bool.not_false, hdo]
  rw [addResponseMessageCt]
  rw [show ({ ct with convo := { ct.convo with completed := true } } : ConvoTx).tx = ct.tx from rfl]
  rw [Transaction.addResponseMessage, hmsg]
  refine ⟨_, rfl, ?_, rfl, rfl⟩
  simp [Transaction.setExpectedAnswers, optDictTruthy, alistGet?_odSet_self]

/-- C3 witness: at the cap, the repeat turn yields the repeat_exhausted
message, leaves the repeat link unset and ends the conversation. -/
theorem c3_repeat_bounded_witness :
    ∃ ct', handleRepeatIntent 8 ctC3 = .ok ct' ∧
      alistGet? ct'.tx.response_messages "repeat_exhausted" =
        some (some "I cannot help right now.") ∧
      ct'.tx.repeat_id = ctC3.tx.repeat_id ∧
      ct'.convo.completed = true :=
  (c3_repeat_bounded 5 ctC3 lastTxC3 "I cannot help right now" []
    (some "I cannot help right now.") rfl (by decide) rfl rfl (by rfl)).1

/-! Claim C4. -/

/-- C4 (amended): for a transaction requiring an answer, is_answered
returns (true, action) when an entity result matches an expected-entity
key or an intent result matches an expected-intent key, the action taken
from the matching entry; additionally, a non-common (app) intent result
satisfies the contract even when no expected key matches, with action
NoAction or a ConfirmSwitchIntent request; only when none of these apply
(and no expected-text contract is set, which would assert) does it return
(false, null). -/
theorem c4_is_answered_characterized (tx : Transaction) (entities : List Entity)
    (intents : List Intent)
    (hreq : tx.requiresAnswer = true) :
    (∀ a, tx.expectedEntityAnswer entities = some a →
      tx.isAnswered entities intents = .ok (true, some a)) ∧
    (∀ a, tx.expectedEntityAnswer entities = none →
      tx.expectedIntentAnswer intents = some a →
      tx.isAnswered entities intents = .ok (true, some a)) ∧
    (tx.expectedEntityAnswer entities = none →
      tx.expectedIntentAnswer intents = none →
      appIntentAnswer intents = none →
      tx.expected_text = none →
      tx.isAnswered entities intents = .ok (false, none)) ∧
    (∀ i, tx.expectedEntityAnswer entities = none →
      tx.expectedIntentAnswer intents = none →
      appIntentAnswer intents = some i →
      ∃ a, tx.isAnswered entities intents = .ok (true, some a) ∧
        (a = Actions.NoAction ∨ a = VariableActions.ConfirmSwitchIntent ++ i.name)) := by
  refine ⟨?_, ?_, ?_, ?_⟩
  · intro a h
    rw [Transaction.isAnswered]
    simp only [hreq, Bool.not_true, Bool.false_eq_true, if_false, h]
  · intro a h1 h2
    rw [Transaction.isAnswered]
    simp only [hreq, Bool.not_true, Bool.false_eq_true, if_false, h1, h2]
  · intro h1 h2 h3 het
    rw [Transaction.isAnswered]
    simp only [hreq, Bool.not_true, Bool.false_eq_true, if_false, h1, h2, h3, het,
      optDictTruthy, reduceIte]
  · intro i h1 h2 h3
    rw [Transaction.isAnswered]
    simp only [hreq, Bool.not_true, Bool.false_eq_true, if_false, h1, h2, h3]
    split
    · exact ⟨_, rfl, Or.inr rfl⟩
    · exact ⟨_, rfl, Or.inl rfl⟩

/-- C4 witness: the amended app-intent clause applied to a transaction
expecting ConfirmYes that instead receives the app intent OrderPizza. -/
theorem c4_is_answered_characterized_witness :
    ∃ a, txC4.isAnswered [] intentsC4 = .ok (true, some a) ∧
      (a = Actions.NoAction ∨
       a = VariableActions.ConfirmSwitchIntent ++ ({ name := "OrderPizza" } : Intent).name) :=
  (c4_is_answered_characterized txC4 [] intentsC4 (by decide)).2.2.2
    { name := "OrderPizza" } rfl rfl rfl

/-- C4 counterexample: no expected key matches (expected_entities is unset
and the only expected-intent key ConfirmYes is not among the results), yet
is_answered returns (true, NoAction) because a non-common intent result is
present, where the claim requires (false, null). -/
theorem c4_counterexample :
    txC4.requiresAnswer = true ∧
    txC4.expected_entities = none ∧
    ((txC4.expected_intents.getD []).map Prod.fst).all
      (fun k => !(intentsC4.map Intent.name).contains k) = true ∧
    txC4.isAnswered [] intentsC4 = .ok (true, some Actions.NoAction) :=
  ⟨rfl, rfl, rfl, rfl⟩

/-! Claim C5. -/

/-- C5: a greeting-flagged intent result is accepted (registered as an
active intent and recorded as a new intent of the turn) only as the
top-scored valid result (position 0) of a conversation with no prior
transaction; at any later position, or once a previous transaction exists,
the analysis step drops it leaving the state untouched, so every other
intent result of the turn is processed exactly as if the greeting were
absent. -/
theorem c5_greeting_placement (fuel : Nat) (ct : ConvoTx) (g : Intent) (greeted : Bool)
    (i : Nat) (rest : List Intent)
    (hg : g.is_greeting = true) :
    ((0 < i ∨ (getLastTransaction ct).isSome = true) →
      classifyStep (fuel + 1) ct greeted i g = .ok (.cont ct greeted) ∧
      classifyNewIntents (fuel + 1) ct greeted i (g :: rest) =
        classifyNewIntents (fuel + 1) ct greeted (i + 1) rest) ∧
    (i = 0 → getLastTransaction ct = none → g.preemptive = false →
      (alistContains ct.convo.active_intents g.name = false ∨ g.repeatable = true) →
      (alistContains ct.convo.intents g.name = false ∨ g.repeatable = true) →
      ∃ convo', classifyStep (fuel + 1) ct greeted i g =
        .ok (.cont { convo := convo',
                     tx := { ct.tx with new_intents := ct.tx.new_intents ++ [g] } } true) ∧
        alistGet? convo'.active_intents g.name = some g ∧
        alistGet? convo'.intents g.name = some g) := by
  constructor
  · intro hdrop
    have hstep : classifyStep (fuel + 1) ct greeted i g = .ok (.cont ct greeted) := by
      rcases hdrop with hi | hl
      · rw [classifyStep]
        simp [hg, hi]
      · by_cases hi : 0 < i <;> rw [classifyStep] <;> simp [hg, hi, hl]
    refine ⟨hstep, ?_⟩
    rw [classifyNewIntents, hstep]
  · intro hi hl hpre hact hreg
    subst hi
    rw [classifyStep]
    simp only [hg]
    have c1 : (true && decide (0 < 0)) = false := by simp
    have c2 : (true && (getLastTransaction ct).isSome) = false := by simp [hl]
    have c3 : (alistContains ct.convo.active_intents g.name && !g.repeatable) = false := by
      rcases hact with h | h <;> simp [h]
    have c4 : (!g.repeatable && alistContains ct.convo.intents g.name) = false := by
      rcases hreg with h | h <;> simp [h]
    simp only [c1, c2, c3, c4, hpre, Bool.false_eq_true, if_false,
      Conversation.addActiveIntent, Bool.or_true]
    exact ⟨_, rfl, alistGet?_odSet_self _ _ _, alistGet?_odSet_self _ _ _⟩

/-- C5 witness: on a conversation with a previous transaction, the
greeting result is dropped without any state change and the rest of the
intent list is processed as if it were absent. -/
theorem c5_greeting_placement_witness :
    classifyStep 4 ctC5 false 0 greetC5 = .ok (.cont ctC5 false) ∧
    classifyNewIntents 4 ctC5 false 0 [greetC5] = classifyNewIntents 4 ctC5 false 1 [] :=
  (c5_greeting_placement 3 ctC5 greetC5 false 0 [] rfl).1 (Or.inr rfl)

/-! Claim C6. -/

/-- C6 (amended): when the fulfillment webhook of a fully-filled intent
fails, the failure is recorded as a persisted fulfillment record and the
intent still moves to completed (and off the active queue, onto the
transaction) through the finally block; the exception, however, is
re-raised rather than swallowed, so the turn is aborted and its reply is
not produced (the error surfaces at the app boundary). -/
theorem c6_completion_despite_webhook_failure (fuel : Nat) (ct : ConvoTx) (intent : Intent)
    (url : String) (slots : List (String × Slot)) (data : List (String × Option String))
    (wh : WebhookOutcome)
    (hs : ct.convo.getIntentSlots intent = .ok slots)
    (hd : intent.getFulfillmentData slots = .ok data)
    (hfu : intent.fulfillment = some url)
    (hfail : (∃ code content, wh = .httpError code content) ∨
      (∃ msg, wh = .transportError msg)) :
    ∃ ct' e rec, addCompletedIntent (fuel + 1) ct intent wh = (ct', some (.requestError e)) ∧
      alistGet? ct'.convo.completed_intents intent.name =
        some { intent with fulfillment_data := some data } ∧
      alistContains ct'.convo.active_intents intent.name = false ∧
      ct'.tx.completed_intent = some { intent with fulfillment_data := some data } ∧
      ct'.convo.fulfillments = ct.convo.fulfillments ++ [rec] := by
  have hfu' : ({ intent with fulfillment_data := some data } : Intent).fulfillment = some url :=
    hfu
  rcases hfail with ⟨code, content, hw⟩ | ⟨msg, hw⟩ <;> subst hw
  · rw [addCompletedIntent, hs]
    simp only [Intent.fulfill, hd, hfu, hfu']
    refine ⟨_, content, ⟨ct.convo.id, url, some code, content, data⟩, rfl, ?_, ?_, ?_, ?_⟩
    · simp [Conversation.removeActiveIntent, alistGet?_odSet_self]
    · simp [Conversation.removeActiveIntent, alistContains, alistGet?_alistErase_self]
    · rfl
    · rfl
  · rw [addCompletedIntent, hs]
    simp only [Intent.fulfill, hd, hfu, hfu']
    refine ⟨_, msg, ⟨ct.convo.id, url, none, msg, data⟩, rfl, ?_, ?_, ?_, ?_⟩
    · simp [Conversation.removeActiveIntent, alistGet?_odSet_self]
    · simp [Conversation.removeActiveIntent, alistContains, alistGet?_alistErase_self]
    · rfl
    · rfl

/-- C6 witness: an HTTP 500 from the webhook still lands the intent in
completed_intents with a persisted record, and the error is re-raised. -/
theorem c6_completion_despite_webhook_failure_witness :
    ∃ ct' e rec, addCompletedIntent 6 ctC6 intentC6 (.httpError 500 "server error") =
        (ct', some (.requestError e)) ∧
      alistGet? ct'.convo.completed_intents intentC6.name =
        some { intentC6 with fulfillment_data := some [("size", some "large")] } ∧
      alistContains ct'.convo.active_intents intentC6.name = false ∧
      ct'.tx.completed_intent =
        some { intentC6 with fulfillment_data := some [("size", some "large")] } ∧
      ct'.convo.fulfillments = ctC6.convo.fulfillments ++ [rec] :=
  c6_completion_despite_webhook_failure 5 ctC6 intentC6 "url1" [("size", slotC6)]
    [("size", some "large")] _ rfl rfl rfl (Or.inl ⟨500, "server error", rfl⟩)

/-- C6 counterexample: on a failing webhook call the error is re-raised
(err.isSome = true), so the turn is aborted rather than continuing to its
reply, where the claim requires the failure to be caught; the intent does
land in completed_intents and the record is persisted. -/
theorem c6_counterexample :
    (match addCompletedIntent 6 ctC6 intentC6 (.httpError 500 "server error") with
     | (ct, err) => (alistContains ct.convo.completed_intents "Order",
                     alistContains ct.convo.active_intents "Order",
                     ct.convo.fulfillments.length,
                     ct.tx.completed_intent.map Intent.name,
                     err.isSome)) =
    (true, false, 1, some "Order", true) := by rfl

/-! Claim C8. -/

theorem scoreFilter_iff (s : Option ℚ) (t : ℚ) :
    (s.isNone || decide (s.getD 0 > t)) = true ↔ (s = none ∨ ∃ q, s = some q ∧ t < q) := by
  cases s <;> simp [gt_iff_lt]

/-- C8 (amended): process_intent_response filters the NLU candidates by the
configured confidence thresholds before classification — a result with no
score always passes, an intent named None is removed — and passes the
entire filtered lists to create_response_message: no clipping to a maximum
number of new intents exists (see the counterexample). -/
theorem c8_threshold_filtering (md : Metadata) (r : IntentResponse) (x : Intent) (e : Entity) :
    (x ∈ (processIntentResponseValid md r).1 ↔
      x ∈ r.intents ∧
        (x.score = none ∨ ∃ q, x.score = some q ∧ md.INTENT_FILTER_THRESHOLD < q) ∧
        x.name ≠ "None") ∧
    (e ∈ (processIntentResponseValid md r).2 ↔
      e ∈ r.entities ∧
        (e.score = none ∨ ∃ q, e.score = some q ∧ md.ENTITY_FILTER_THRESHOLD < q)) := by
  constructor
  · rw [processIntentResponseValid, IntentResponse.getValid]
    simp only [IntentResponse.filterIntents, List.mem_filter, Bool.and_eq_true,
      scoreFilter_iff, Bool.not_eq_eq_eq_not, Bool.not_true, decide_eq_false_iff_not,
      ne_eq, and_assoc]
  · rw [processIntentResponseValid, IntentResponse.getValid]
    simp only [IntentResponse.filterEntities, List.mem_filter, scoreFilter_iff]

/-- C8 counterexample: the considered-intent list is not clipped to any
configured maximum — for every bound there is a response whose considered
list is longer, because process_intent_response passes every
threshold-surviving intent through. -/
theorem c8_counterexample :
    ¬ ∃ M : Nat, ∀ r : IntentResponse,
      ((processIntentResponseValid {} r).1).length ≤ M := by
  rintro ⟨M, h⟩
  have hM := h { intents := List.replicate (M + 1) { name := "a" } }
  rw [processIntentResponseValid, IntentResponse.getValid] at hM
  simp only [IntentResponse.filterIntents] at hM
  rw [List.filter_replicate] at hM
  simp at hM

/-! Claim C9. -/

/-- C9 (code bug): aborting the active intent emits the intent_aborted
message, records the abort and removes the intent from the active queue as
the claim states, but clear_question_attempts assigns the integer 0 where
every reader expects a dict, so the subsequent attempt-count query raises
an AttributeError instead of reporting zero attempts. -/
theorem c9_abort_clears_counters_bug :
    (abortIntent 5 ctC9).map (fun ct =>
      (alistGet? ct.tx.response_messages "intent_aborted",
       ct.tx.aborted_intents.map Intent.name,
       alistContains ct.convo.active_intents "BookTable",
       ct.convo.question_attempts,
       ct.convo.getQuestionAttempts (some intentC9) qC9)) =
    .ok (some (some "I am unable to help."), ["BookTable"], false,
         [("BookTable", QAEntry.int 0)],
         .error (.attributeError "int object has no attribute get")) := by rfl

/-! Claim C7: list lemmas for the slot-filling loop. -/

theorem mem_of_alistGet? {α : Type} (l : List (String × α)) (k : String) (v : α)
    (h : alistGet? l k = some v) : (k, v) ∈ l := by
  induction l with
  | nil => simp [alistGet?] at h
  | cons p t ih =>
    by_cases hp : p.1 = k
    · rw [alistGet?, if_pos hp] at h
      injection h with h
      exact List.mem_cons.mpr (Or.inl (by rw [← hp, ← h]))
    · rw [alistGet?, if_neg hp] at h
      exact List.mem_cons_of_mem _ (ih h)

theorem alistContains_of_mem {α : Type} (l : List (String × α)) (k : String) (v : α)
    (h : (k, v) ∈ l) : alistContains l k = true := by
  induction l with
  | nil => simp at h
  | cons p t ih =>
    rcases List.mem_cons.mp h with h | h
    · simp [alistContains, alistGet?, ← h]
    · by_cases hp : p.1 = k
      · simp [alistContains, alistGet?, hp]
      · simpa [alistContains, alistGet?, hp] using ih h

theorem alistContains_eq_false_forall {α : Type} (l : List (String × α)) (k : String)
    (h : alistContains l k = false) : ∀ p ∈ l, p.1 ≠ k := by
  intro p hp hk
  rw [show p = (k, p.2) from by rw [← hk]] at hp
  rw [alistContains_of_mem l k p.2 hp] at h
  exact Bool.true_eq_false.mp h

theorem alistGet?_erase_ne {α : Type} (l : List (String × α)) (k k' : String) (h : k' ≠ k) :
    alistGet? (alistErase l k) k' = alistGet? l k' := by
  induction l with
  | nil => rfl
  | cons p t ih =>
    by_cases hp : p.1 = k
    · have h1 : alistErase (p :: t) k = alistErase t k := by
        simp [alistErase, List.filter_cons, hp]
      rw [h1, ih, alistGet?, if_neg (fun he : p.1 = k' => h (he ▸ hp))]
    · have h1 : alistErase (p :: t) k = p :: alistErase t k := by
        simp [alistErase, List.filter_cons, hp]
      rw [h1, alistGet?, alistGet?, ih]

theorem alistContains_erase_self {α : Type} (l : List (String × α)) (k : String) :
    alistContains (alistErase l k) k = false := by
  simp [alistContains, alistGet?_alistErase_self]

theorem alistContains_erase {α : Type} (l : List (String × α)) (k k' : String)
    (h : alistContains (alistErase l k) k' = true) :
    k' ≠ k ∧ alistContains l k' = true := by
  by_cases hk : k' = k
  · subst hk
    rw [alistContains_erase_self] at h
    exact absurd h (by simp)
  · refine ⟨hk, ?_⟩
    rwa [alistContains, alistGet?_erase_ne l k k' hk] at h

theorem alistContains_filter {α : Type} (q : (String × α) → Bool) (l : List (String × α))
    (k : String) (h : alistContains (l.filter q) k = true) : alistContains l k = true := by
  rw [alistContains, Option.isSome_iff_exists] at h
  obtain ⟨v, hv⟩ := h
  have := mem_of_alistGet? _ _ _ hv
  exact alistContains_of_mem l k v (List.mem_of_mem_filter this)

theorem alistContains_map_qmsg (l : List (String × Slot)) (k : String) :
    alistContains (l.map (fun p => (p.1, QMessage.slot p.2))) k = alistContains l k := by
  induction l with
  | nil => rfl
  | cons p t ih =>
    by_cases hp : p.1 = k
    · simp [alistContains, alistGet?, hp]
    · simp only [alistContains, alistGet?] at ih ⊢
      simp [hp, ih]

theorem alistGet?_odSet_isSome {α : Type} (l : List (String × α)) (k k' : String) (v : α)
    (hk : alistContains l k = true) :
    (alistGet? (odSet l k v) k').isSome = (alistGet? l k').isSome := by
  by_cases h : k' = k
  · subst h
    rw [alistGet?_odSet_self]
    rw [alistContains] at hk
    rw [hk]
    rfl
  · rw [alistGet?_odSet_ne l k k' v h]

theorem filter_erase_cons (e : Entity) (rest : List Entity) (l : List (String × QMessage)) :
    (alistErase l e.slot_name).filter (fun p => !(rest.any (fun x => x.slot_name = p.1))) =
    l.filter (fun p => !((e :: rest).any (fun x => x.slot_name = p.1))) := by
  rw [alistErase, List.filter_filter]
  apply List.filter_congr
  intro p _
  by_cases h : e.slot_name = p.1
  · simp [h, List.any_cons]
  · simp [h, List.any_cons]
    exact fun _ hh => h hh.symm

theorem filter_cons_notmem (e : Entity) (rest : List Entity) (l : List (String × QMessage))
    (h : ∀ p ∈ l, p.1 ≠ e.slot_name) :
    l.filter (fun p => !((e :: rest).any (fun x => x.slot_name = p.1))) =
    l.filter (fun p => !(rest.any (fun x => x.slot_name = p.1))) := by
  apply List.filter_congr
  intro p hp
  simp [List.any_cons]
  exact fun _ hh => (h p hp) hh.symm

/-- Invariant of the fillSlotsLoop pass of fill_intent_slots_with_entities
when every entity came from context (the line-991 suppression applies to
each fill): no follow-up is enqueued, exactly the matched slots leave the
remaining list, the registry entry of the intent keeps its key structure
with every still-unfilled slot still listed as remaining, and the question,
active intent and completed intents of the state are untouched. -/
theorem fillSlotsLoop_context_spec (intent : Intent) :
    ∀ (entities : List Entity), (∀ e ∈ entities, e.from_context = true) →
    ∀ (ct : ConvoTx) (remaining : List (String × QMessage)) (st : Intent),
      alistGet? ct.convo.intents intent.name = some st →
      (∀ k, alistContains remaining k = true → (alistGet? st.slots k).isSome = true) →
      (∀ k s, alistGet? st.slots k = some s → s.value = none →
        alistContains remaining k = true) →
      ∃ ct' st',
        fillSlotsLoop ct intent remaining false entities =
          .ok (ct', remaining.filter (fun p => !(entities.any (fun x => x.slot_name = p.1)))) ∧
        alistGet? ct'.convo.intents intent.name = some st' ∧
        (∀ k, (alistGet? st'.slots k).isSome = (alistGet? st.slots k).isSome) ∧
        (∀ k s, alistGet? st'.slots k = some s → s.value = none →
          alistContains
            (remaining.filter (fun p => !(entities.any (fun x => x.slot_name = p.1)))) k
            = true) ∧
        ct'.tx.question = ct.tx.question ∧
        ct'.convo.active_intent = ct.convo.active_intent ∧
        ct'.convo.completed_intents = ct.convo.completed_intents := by
  intro entities
  induction entities with
  | nil =>
    intro _ ct remaining st hst hkeys hunf
    refine ⟨ct, st, ?_, hst, fun k => rfl, ?_, rfl, rfl, rfl⟩
    · simp [fillSlotsLoop]
    · intro k s hget hnone
      simpa using hunf k s hget hnone
  | cons e rest ih =>
    intro hctx ct remaining st hst hkeys hunf
    have hectx : e.from_context = true := hctx e (List.mem_cons_self e rest)
    have hrest : ∀ x ∈ rest, x.from_context = true :=
      fun x hx => hctx x (List.mem_cons_of_mem e hx)
    by_cases hc : alistContains remaining e.slot_name = true
    · obtain ⟨slot, hslot⟩ : ∃ s, alistGet? st.slots e.slot_name = some s := by
        have h1 := hkeys e.slot_name hc
        cases hh : alistGet? st.slots e.slot_name
        · rw [hh] at h1
          exact absurd h1 (by simp)
        · exact ⟨_, rfl⟩
      have hkek : alistContains st.slots e.slot_name = true := by
        rw [alistContains, hslot]
        rfl
      have hstep :
          fillSlotsLoop ct intent remaining false (e :: rest) =
          fillSlotsLoop
            ⟨{ ct.convo with intents := odSet ct.convo.intents intent.name { st with slots := odSet st.slots e.slot_name { slot with value := some e } } }, { ct.tx with slots_filled := odSet ct.tx.slots_filled intent.name e }⟩
            intent (alistErase remaining e.slot_name) false rest := by
        simp only [fillSlotsLoop, hc, if_true, hst, hslot, fillIntentSlot,
          Bool.and_false, Bool.false_eq_true, if_false]
        cases hfu : slot.follow_up with
        | none => rfl
        | some fu => simp [hectx]
      obtain ⟨ct', st', hloop, hst', hsome, hunf', hq, hact, hcomp⟩ :=
        ih hrest
          ⟨{ ct.convo with intents := odSet ct.convo.intents intent.name { st with slots := odSet st.slots e.slot_name { slot with value := some e } } }, { ct.tx with slots_filled := odSet ct.tx.slots_filled intent.name e }⟩
          (alistErase remaining e.slot_name)
          { st with slots := odSet st.slots e.slot_name { slot with value := some e } }
          (alistGet?_odSet_self _ _ _)
          (by
            intro k hk
            obtain ⟨hne, hkrem⟩ := alistContains_erase remaining e.slot_name k hk
            have h2 := hkeys k hkrem
            rw [show ((alistGet? (odSet st.slots e.slot_name
                  { slot with value := some e }) k).isSome = (alistGet? st.slots k).isSome)
                from alistGet?_odSet_isSome st.slots e.slot_name k _ hkek]
            exact h2)
          (by
            intro k s hgk hv
            by_cases hk : k = e.slot_name
            · subst hk
              rw [alistGet?_odSet_self] at hgk
              injection hgk with hgk
              rw [← hgk] at hv
              simp at hv
            · rw [alistGet?_odSet_ne _ _ _ _ hk] at hgk
              have h2 := hunf k s hgk hv
              rw [alistContains, alistGet?_erase_ne remaining e.slot_name k hk]
              exact h2)
      refine ⟨ct', st', ?_, hst', ?_, ?_, hq, hact, hcomp⟩
      · rw [hstep, hloop, filter_erase_cons e rest remaining]
      · intro k
        rw [hsome k, alistGet?_odSet_isSome st.slots e.slot_name k _ hkek]
      · intro k s hgk hv
        have h2 := hunf' k s hgk hv
        rwa [filter_erase_cons e rest remaining] at h2
    · have hcf : alistContains remaining e.slot_name = false := by
        cases h : alistContains remaining e.slot_name
        · rfl
        · exact absurd h hc
      have hnotmem : ∀ p ∈ remaining, p.1 ≠ e.slot_name :=
        alistContains_eq_false_forall remaining e.slot_name hcf
      obtain ⟨ct', st', hloop, hst', hsome, hunf', hq, hact, hcomp⟩ :=
        ih hrest ct remaining st hst hkeys hunf
      refine ⟨ct', st', ?_, hst', hsome, ?_, hq, hact, hcomp⟩
      · simp only [fillSlotsLoop, hcf, Bool.false_eq_true, if_false]
        rw [hloop, filter_cons_notmem e rest remaining hnotmem]
      · intro k s hgk hv
        have h2 := hunf' k s hgk hv
        rwa [filter_cons_notmem e rest remaining hnotmem]

/-- collectSlotValues succeeds when every listed slot is present in the
container and every slot of the container is filled. -/
theorem collectSlotValues_ok (slot_data : List (String × Slot)) :
    ∀ (slots : List (String × Slot)),
      (∀ p ∈ slots, (alistGet? slot_data p.1).isSome = true) →
      (∀ k s, alistGet? slot_data k = some s → s.value.isSome = true) →
      ∃ vals, collectSlotValues slot_data slots = .ok vals := by
  intro slots
  induction slots with
  | nil => exact fun _ _ => ⟨[], rfl⟩
  | cons p rest ih =>
    intro hmem hval
    obtain ⟨s, hs⟩ : ∃ s, alistGet? slot_data p.1 = some s := by
      have h1 := hmem p (List.mem_cons_self p rest)
      cases hh : alistGet? slot_data p.1
      · rw [hh] at h1
        exact absurd h1 (by simp)
      · exact ⟨_, rfl⟩
    obtain ⟨ev, hev⟩ : ∃ ev, s.value = some ev := by
      have h1 := hval p.1 s hs
      cases hh : s.value
      · rw [hh] at h1
        exact absurd h1 (by simp)
      · exact ⟨_, rfl⟩
    obtain ⟨tail, htail⟩ := ih (fun q hq => hmem q (List.mem_cons_of_mem p hq)) hval
    refine ⟨(p.1, ev.value) :: tail, ?_⟩
    simp only [collectSlotValues, hs, hev, htail]

/-- Completing an intent with no webhook configured and all of its slots
filled in the registry succeeds: the finally block moves the intent to the
completed registry and records it on the transaction, with no question
asked and no error raised. -/
theorem addCompletedIntent_no_webhook (fuel : Nat) (ct : ConvoTx) (intent st : Intent)
    (webhook : WebhookOutcome) (vals : List (String × Option String))
    (hst : alistGet? ct.convo.intents intent.name = some st)
    (hvals : collectSlotValues st.slots intent.slots = .ok vals)
    (hfu : intent.fulfillment = none) :
    (addCompletedIntent (fuel + 1) ct intent webhook).2 = none ∧
      alistContains
        (addCompletedIntent (fuel + 1) ct intent webhook).1.convo.completed_intents
        intent.name = true ∧
      (addCompletedIntent (fuel + 1) ct intent webhook).1.tx.question = ct.tx.question ∧
      ∃ fi, (addCompletedIntent (fuel + 1) ct intent webhook).1.tx.completed_intent = some fi ∧
        fi.name = intent.name := by
  refine ⟨?_, ?_, ?_, ?_⟩
  · simp only [addCompletedIntent, Conversation.getIntentSlots, hst, Intent.fulfill,
      Intent.getFulfillmentData, hvals, hfu]
  · simp only [addCompletedIntent, Conversation.getIntentSlots, hst, Intent.fulfill,
      Intent.getFulfillmentData, hvals, hfu, Conversation.removeActiveIntent,
      alistContains, alistGet?_odSet_self, Option.isSome_some]
  · simp only [addCompletedIntent, Conversation.getIntentSlots, hst, Intent.fulfill,
      Intent.getFulfillmentData, hvals, hfu]
  · refine ⟨{ intent with fulfillment_data := some vals }, ?_, rfl⟩
    simp only [addCompletedIntent, Conversation.getIntentSlots, hst, Intent.fulfill,
      Intent.getFulfillmentData, hvals, hfu]

/-- Claim C7: an entity result injected from a caller-supplied context map is
flagged from_context; filling a slot with a from_context entity never
enqueues the follow-up of that slot; and an intent whose remaining slots are
all covered by context entities completes in the same turn without asking
any question: the pending question of the turn is unchanged, the intent
moves to the completed registry and is recorded on the transaction. -/
theorem c7_context_entities_no_followup (fuel : Nat) (ct : ConvoTx) (intent : Intent)
    (entities : List Entity) (webhook : WebhookOutcome)
    (hctx : ∀ e ∈ entities, e.from_context = true)
    (hne : entities ≠ [])
    (hstored : alistGet? ct.convo.intents intent.name = some intent)
    (hrem : intent.getRemainingIntentSlots ≠ [])
    (hcover : ∀ p ∈ intent.getRemainingIntentSlots,
      entities.any (fun x => x.slot_name = p.1) = true)
    (hfu : intent.fulfillment = none)
    (hai : ct.convo.active_intent = none ∨ ct.convo.active_intent = some intent) :
    (∀ (r : IntentResponse) (context : List (String × String)),
      ∀ e ∈ (r.addEntitiesFromContext context).entities,
        e ∈ r.entities ∨ e.from_context = true) ∧
    ∃ ct2,
      fillIntentSlotsWithEntities (fuel + 3) ct intent entities webhook = .ok ([], ct2) ∧
      ct2.tx.question = ct.tx.question ∧
      alistContains ct2.convo.completed_intents intent.name = true ∧
      ∃ fi, ct2.tx.completed_intent = some fi ∧ fi.name = intent.name := by
  constructor
  · intro r context e he
    simp only [IntentResponse.addEntitiesFromContext, List.mem_append] at he
    rcases he with he | he
    · exact Or.inl he
    · obtain ⟨p, _, hp⟩ := List.mem_map.mp he
      exact Or.inr (by rw [← hp])
  · have hE : entities.isEmpty = false := by
      cases entities
      · exact absurd rfl hne
      · rfl
    have hR : intent.getRemainingIntentSlots.isEmpty = false := by
      cases hx : intent.getRemainingIntentSlots
      · exact absurd hx hrem
      · rfl
    have hkeys0 : ∀ k, alistContains intent.getRemainingIntentSlots k = true →
        (alistGet? intent.slots k).isSome = true := by
      intro k hk
      rw [Intent.getRemainingIntentSlots, alistContains_map_qmsg] at hk
      exact alistContains_filter _ _ _ hk
    have hunf0 : ∀ k s, alistGet? intent.slots k = some s → s.value = none →
        alistContains intent.getRemainingIntentSlots k = true := by
      intro k s hgk hv
      have hmem : (k, s) ∈ intent.slots.filter (fun p => p.2.value.isNone) :=
        List.mem_filter.mpr ⟨mem_of_alistGet? _ _ _ hgk, by simp [hv]⟩
      rw [Intent.getRemainingIntentSlots, alistContains_map_qmsg]
      exact alistContains_of_mem _ _ _ hmem
    obtain ⟨ct', st', hloop, hst', hsome, hunf', hq, hact, hcomp⟩ :=
      fillSlotsLoop_context_spec intent entities hctx ct intent.getRemainingIntentSlots intent
        hstored hkeys0 hunf0
    have hnil : intent.getRemainingIntentSlots.filter
        (fun p => !(entities.any (fun x => x.slot_name = p.1))) = [] := by
      rw [List.filter_eq_nil_iff]
      intro p hp
      simp [hcover p hp]
    rw [hnil] at hloop hunf'
    have hfilled : ∀ k s, alistGet? st'.slots k = some s → s.value.isSome = true := by
      intro k s hgk
      cases hv : s.value
      · have h2 := hunf' k s hgk hv
        simp [alistContains, alistGet?] at h2
      · rfl
    have hmem : ∀ p ∈ intent.slots, (alistGet? st'.slots p.1).isSome = true := by
      intro p hp
      rw [hsome p.1]
      exact alistContains_of_mem _ _ _ hp
    obtain ⟨vals, hvals⟩ := collectSlotValues_ok st'.slots intent.slots hmem hfilled
    rcases hai with hnone | hsome2
    · have hact' : ct'.convo.active_intent = none := hact.trans hnone
      obtain ⟨h2none, hcompl, hq2, fi, hfi, hfiname⟩ :=
        addCompletedIntent_no_webhook (fuel + 1) ct' intent st' webhook vals hst' hvals hfu
      have hpair : addCompletedIntent (fuel + 2) ct' intent webhook =
          ((addCompletedIntent (fuel + 2) ct' intent webhook).1, none) := by
        rw [← h2none]
      refine ⟨(addCompletedIntent (fuel + 2) ct' intent webhook).1, ?_, hq2.trans hq,
        hcompl, fi, hfi, hfiname⟩
      simp only [fillIntentSlotsWithEntities, hstored, Option.getD_some, hE,
        Bool.false_eq_true, if_false, hR, hloop, List.isEmpty_nil, if_true, hact']
      rw [hpair]
    · have hact' : ct'.convo.active_intent = some intent := hact.trans hsome2
      obtain ⟨h2none, hcompl, hq2, fi, hfi, hfiname⟩ :=
        addCompletedIntent_no_webhook fuel ct' intent st' webhook vals hst' hvals hfu
      have hpair : addCompletedIntent (fuel + 1) ct' intent webhook =
          ((addCompletedIntent (fuel + 1) ct' intent webhook).1, none) := by
        rw [← h2none]
      refine ⟨{ (addCompletedIntent (fuel + 1) ct' intent webhook).1 with convo := { (addCompletedIntent (fuel + 1) ct' intent webhook).1.convo with active_intent := none } }, ?_, hq2.trans hq, hcompl, fi, hfi, hfiname⟩
      simp only [fillIntentSlotsWithEntities, hstored, Option.getD_some, hE,
        Bool.false_eq_true, if_false, hR, hloop, List.isEmpty_nil, if_true, hact',
        eq_self_iff_true, decide_True, activeIntentCompleted]
      rw [hpair]

/-- Witness for C7: a weather intent whose single city slot carries a
follow-up confirmation, filled entirely by a context-sourced entity,
completes at once without asking the follow-up. -/
theorem c7_context_entities_no_followup_witness :
    (∀ (r : IntentResponse) (context : List (String × String)),
      ∀ e ∈ (r.addEntitiesFromContext context).entities,
        e ∈ r.entities ∨ e.from_context = true) ∧
    ∃ ct2,
      fillIntentSlotsWithEntities 3 ctC7 intentC7 [entC7]
        (.ok 200 "" "success" none none none) = .ok ([], ct2) ∧
      ct2.tx.question = ctC7.tx.question ∧
      alistContains ct2.convo.completed_intents intentC7.name = true ∧
      ∃ fi, ct2.tx.completed_intent = some fi ∧ fi.name = intentC7.name :=
  c7_context_entities_no_followup 0 ctC7 intentC7 [entC7] (.ok 200 "" "success" none none none)
    (by decide) (by decide) (by rfl) (by decide) (by decide) (by rfl) (Or.inl rfl)

end Chatbot
